import Mathlib

/-!
# Verification of the multi-registry SBOM age/update checker (`sbom-check.py`)

A shallow embedding of the core of `sbom-check.py`:

* `parse_purl`                 — coordinate parser (source lines 78-109);
* `_is_semver_like`            — version-shape heuristic (lines 772-784);
* `compare_versions`           — version comparator (lines 739-769);
* the cache keys, cache entries and the two-level cache (lines 710-737);
* the two-phase pipeline of `analyze_sbom`: release-date resolution with
  caching (`fetch_release`, lines 882-926), alarm collection (lines 938-945),
  latest-version discovery with validation and cache write-back
  (`fetch_latest_for_alarm`, lines 948-1049) and the printed
  `UPDATE_AVAILABLE` decision (lines 1061-1077);
* the tier structure of the Maven resolvers `get_maven_release_date`
  (lines 280-387) and `get_latest_maven_version` (lines 389-546), and the
  failure behaviour of the single-endpoint resolvers for
  pypi / npm / cocoapods / crates (lines 251-277, 553-707).

Modelling conventions:

* datetimes are integers (seconds since the epoch, UTC); the code's
  timezone normalisation (`replace(tzinfo=...)`) is the identity here;
* Python dictionaries holding the caches become functions
  `String → Option CacheEntry`; the string keys are built exactly as the
  source builds them;
* network calls are oracles passed in: the pipeline takes a `Resolvers`
  record of resolver functions, the per-resolver tier models take a
  per-tier oracle of type `Except Unit (Option _)` whose `.error` value
  models a raised exception and whose `.ok none` models a response that
  yields no value (non-2xx status, missing field, parse failure);
* the thread pools of `analyze_sbom` are modelled by a sequential fold:
  every claim below is about the set/content of results, which the code
  aggregates independently of completion order;
* the optional `packaging` / `semver` libraries (imported inside
  `try/except` in the source) appear as oracle arguments of
  `compare_versions`; the pipeline instantiates them as absent
  (`compareVersionsF`), one of the configurations the source supports.
-/

namespace SbomCheck

/-! ## Python string-splitting primitives

`splitOnce sep l` is Python's `s.split(sep, 1)` together with its failure
mode: it returns `none` exactly when `sep` does not occur in `l`, in which
case the source's tuple unpacking `a, b = s.split(sep, 1)` raises
`ValueError`. `splitAll` is `s.split(sep)` (note `''.split(sep) == ['']`).
-/

def splitOnce (sep : Char) : List Char → Option (List Char × List Char)
  | [] => none
  | c :: cs =>
    if c = sep then some ([], cs)
    else (splitOnce sep cs).map (fun pr => (c :: pr.1, pr.2))

def splitAll (sep : Char) : List Char → List (List Char)
  | [] => [[]]
  | c :: cs =>
    if c = sep then [] :: splitAll sep cs
    else
      match splitAll sep cs with
      | h :: t => (c :: h) :: t
      | [] => [[c]]

/-- Python `s.split(sep)[0]`: the prefix up to (excluding) the first `sep`. -/
def takeBefore (sep : Char) (l : List Char) : List Char :=
  l.takeWhile (fun c => c ≠ sep)

/-! ## `parse_purl` (source lines 78-109) -/

/-- The dictionary returned by `parse_purl`.  The Python dict carries
`name` only for non-maven types and `group`/`artifact` only for maven;
here the unused fields default to `""` (matching the `or ''` accesses at
every use site in the source). -/
structure ParsedPurl where
  type : String
  version : String
  name : String := ""
  group : String := ""
  artifact : String := ""
deriving DecidableEq, Repr

/-- `parse_purl` (lines 78-109).  `none` models the `return None` paths:
input not starting with `pkg:` (line 79), and the `ValueError` of
`main_part, version_part = purl[4:].split('@', 1)` when no `'@'` occurs
(caught at line 107).  Note: line 105 only *joins* the remaining path
segments — there is no percent-decoding. -/
def parse_purl (purl : String) : Option ParsedPurl :=
  match purl.data with
  | 'p' :: 'k' :: 'g' :: ':' :: rest =>
    match splitOnce '@' rest with
    | none => none
    | some (mainPart, versionPart) =>
      let version := String.mk (takeBefore '#' (takeBefore '?' versionPart))
      let parts := splitAll '/' mainPart
      let pkgType := String.mk (parts.headD [])
      if pkgType = "maven" then
        let ga : String × String :=
          if parts.length ≥ 3 then
            (String.mk (parts.getD 1 []), String.mk (parts.getD 2 []))
          else if parts.length = 2 then
            match splitOnce ':' (parts.getD 1 []) with
            | some (g, a) => (String.mk g, String.mk a)
            | none => ("", String.mk (parts.getD 1 []))
          else ("", "")
        some { type := pkgType, version := version, group := ga.1, artifact := ga.2 }
      else
        let name :=
          if parts.length > 1 then String.mk (List.intercalate ['/'] (parts.drop 1)) else ""
        some { type := pkgType, version := version, name := name }
  | _ => none

/-! ## `_is_semver_like` (source lines 772-784)

The regex is `^[0-9]+(\.[0-9]+)*(?:[-+][A-Za-z0-9\.\-]+)?$`: one digit run,
then dot-separated digit runs, then an optional pre-release/build suffix
introduced by `-` or `+` whose body is ASCII alphanumerics, dots, hyphens.
-/

/-- body of the optional `[-+][A-Za-z0-9\.\-]+` suffix -/
def svSuffixOk (cs : List Char) : Bool :=
  !cs.isEmpty && cs.all (fun c => c.isAlphanum || c = '.' || c = '-')

/-- scanner state for the version-shape regex: `run` = inside a digit
run (at least one digit consumed), `dotStart` = just consumed a `'.'`,
at least one digit required. -/
inductive SvState where
  | run | dotStart
deriving DecidableEq, Repr

/-- the deterministic scan of `[0-9]+(\.[0-9]+)*(?:[-+][A-Za-z0-9\.\-]+)?$`
after the first (digit) character. -/
def svScan : SvState → List Char → Bool
  | .run, [] => true
  | .run, c :: cs =>
    if c.isDigit then svScan .run cs
    else if c = '.' then svScan .dotStart cs
    else if c = '-' || c = '+' then svSuffixOk cs
    else false
  | .dotStart, [] => false
  | .dotStart, c :: cs => c.isDigit && svScan .run cs

def _is_semver_like (v : String) : Bool :=
  match v.data with
  | [] => false
  | c :: cs => c.isDigit && svScan .run cs

/-! ## `compare_versions` (source lines 739-769) -/

/-- `int(''.join(ch for ch in p if ch.isdigit()) or 0)` for one dot-segment. -/
def digitsVal (p : List Char) : Nat :=
  (p.filter Char.isDigit).foldl (fun a c => a * 10 + (c.toNat - 48)) 0

/-- the inner `norm` of `compare_versions` (lines 754-761). -/
def normSegs (v : String) : List Nat :=
  (splitAll '.' v.data).map digitsVal

/-- `for a, b in zip(lat, cur): if a != b: return a > b` then
`return len(lat) > len(cur)` (lines 764-767); first argument is `lat`. -/
def cmpDotted : List Nat → List Nat → Bool
  | a :: as, b :: bs => if a = b then cmpDotted as bs else decide (a > b)
  | as, bs => decide (as.length > bs.length)

/-- `compare_versions(current, latest, pkg_type)` (lines 739-769).
`pypiCmp` is the oracle for `PackagingVersion(latest) > PackagingVersion(current)`
(`none` = library absent or parse raised), `semverCmp` the oracle for
`semver.compare(latest, current) > 0` likewise.  The trailing numeric-dot
fallback never raises, so the outer `except: return None` is unreachable
past the guard. -/
def compare_versions (pypiCmp semverCmp : Option Bool)
    (current latest pkg_type : String) : Option Bool :=
  if current = "" ∨ latest = "" then none
  else
    let fallback := some (cmpDotted (normSegs latest) (normSegs current))
    if pkg_type = "pypi" then
      match pypiCmp with
      | some b => some b
      | none =>
        match semverCmp with
        | some b => some b
        | none => fallback
    else
      match semverCmp with
      | some b => some b
      | none => fallback

/-- `compare_versions` in the configuration where neither optional version
library is installed (both imports at lines 39-47 fall back to `None`). -/
def compareVersionsF (current latest pkg_type : String) : Option Bool :=
  compare_versions none none current latest pkg_type

/-! ## Persistent cache model (source lines 710-737, 83)

The persistent cache is a flat JSON object.  A release entry is
`{'date': iso-or-None}` (written at line 923), a latest entry is
`{'latest': v, 'newer': tri-state, 'source': tag?}` (written at
lines 1041-1047).  The dict becomes a function from the string keys the
source builds to entries.
-/

inductive CacheEntry where
  | rel (date : Option Int)
  | lat (latest : String) (newer : Option Bool) (source : Option String)
deriving DecidableEq, Repr

def Cache : Type := String → Option CacheEntry

def emptyCache : Cache := fun _ => none

def cupdate (c : Cache) (k : String) (v : CacheEntry) : Cache :=
  fun q => if q = k then some v else c q

/-- `_make_release_cache_key` (lines 732-736). -/
def releaseKey (p : ParsedPurl) : String :=
  if p.type = "maven" then
    "release:" ++ p.type ++ ":" ++ p.group ++ ":" ++ p.artifact ++ ":" ++ p.version
  else
    "release:" ++ p.type ++ ":" ++ p.name ++ "::" ++ p.version

/-- the latest-version cache key as built at lines 956, 961, 966-967, 985,
990 (and re-built for printing at lines 1066-1069: maven uses
`group:artifact`, every other ecosystem uses the name). -/
def latestKey (p : ParsedPurl) : String :=
  if p.type = "maven" then
    "latest:" ++ p.type ++ ":" ++ p.group ++ ":" ++ p.artifact
  else
    "latest:" ++ p.type ++ ":" ++ p.name

/-- `persistent_cache.get(key, {}).get('latest')` -/
def cachedLatestOf : Option CacheEntry → Option String
  | some (.lat l _ _) => some l
  | _ => none

/-- `cached_entry.get('source')` -/
def cachedSourceOf : Option CacheEntry → Option String
  | some (.lat _ _ s) => s
  | _ => none

/-- `persistent_cache.get(key, {}).get('newer')` (line 1070). -/
def newerOf : Option CacheEntry → Option Bool
  | some (.lat _ n _) => n
  | _ => none

/-! ## Resolver abstraction for the pipeline

`analyze_sbom` only ever calls the per-ecosystem resolver functions; for
the pipeline claims those are oracles gathered in a record.  A `none`
result is the resolvers' `return None` (`get_latest_maven_version`
returns the pair `(None, None)`). -/

/-- a Python `datetime` as the release resolvers return it: the instant
in seconds (for a timezone-naive value, its wall clock read as UTC) and
whether it carries a timezone.  The resolvers can return naive values
(e.g. an npm/crates/pypi timestamp without a `Z`/offset parsed by
`fromisoformat`, lines 261/274/701); `fetch_release` normalises them with
`replace(tzinfo=timezone.utc)` (lines 916-917), which under this reading
keeps the instant, while the validation block of `fetch_latest_for_alarm`
compares the raw datetime against the always-aware `rd` (line 1022),
where a naive/aware comparison raises `TypeError`. -/
structure PyDateTime where
  t : Int
  aware : Bool
deriving DecidableEq, Repr

structure Resolvers where
  pypiRelease : String → String → Option PyDateTime
  npmRelease : String → String → Option PyDateTime
  cocoapodsRelease : String → String → Option PyDateTime
  cratesRelease : String → String → Option PyDateTime
  mavenRelease : String → String → String → Option PyDateTime
  pypiLatest : String → Option String
  npmLatest : String → Option String
  cocoapodsLatest : String → Option String
  cratesLatest : String → Option String
  mavenLatest : String → String → Option String × Option String

/-- the second run's stubbed resolvers: every network lookup fails. -/
def Rfail : Resolvers where
  pypiRelease := fun _ _ => none
  npmRelease := fun _ _ => none
  cocoapodsRelease := fun _ _ => none
  cratesRelease := fun _ _ => none
  mavenRelease := fun _ _ _ => none
  pypiLatest := fun _ => none
  npmLatest := fun _ => none
  cocoapodsLatest := fun _ => none
  cratesLatest := fun _ => none
  mavenLatest := fun _ _ => (none, none)

/-! ## Phase 1: `fetch_release` (source lines 882-926) -/

/-- `version.lower() == 'unspecified'` (line 909), character-wise
(ASCII lowering suffices against the all-ASCII literal). -/
def isUnspecified (v : String) : Bool :=
  v.data.map Char.toLower == "unspecified".data

/-- the ecosystem dispatch of `fetch_release` (lines 897-914), including
the maven `unspecified` guard (lines 909-910). -/
def resolveRelRaw (R : Resolvers) (p : ParsedPurl) : Option PyDateTime :=
  if p.type = "pypi" then R.pypiRelease p.name p.version
  else if p.type = "npm" then R.npmRelease p.name p.version
  else if p.type = "cocoapods" then R.cocoapodsRelease p.name p.version
  else if p.type = "cargo" then R.cratesRelease p.name p.version
  else if p.type = "maven" then
    if p.version = "" ∨ isUnspecified p.version then none
    else R.mavenRelease p.group p.artifact p.version
  else none

/-- the dispatch followed by the timezone normalisation of lines 916-917
(`rd.replace(tzinfo=timezone.utc)` for a naive value): every phase-1
release date is aware, so only the instant remains. -/
def resolveRel (R : Resolvers) (p : ParsedPurl) : Option Int :=
  (resolveRelRaw R p).map (fun d => d.t)

structure P1State where
  pc : Cache
  trc : String → Option (Option Int)

/-- `fetch_release` (lines 882-926): persistent hit (only with
`check_updates and cache_file`, and only when the stored `date` is
non-null), then transient hit, then the network lookup whose result —
even `None` — is recorded in both caches. -/
def fetchRelease (R : Resolvers) (cu cf : Bool) (p : ParsedPurl) (st : P1State) :
    Option Int × P1State :=
  let k := releaseKey p
  let phit : Option Int :=
    if cu && cf then
      match st.pc k with
      | some (.rel (some d)) => some d
      | _ => none
    else none
  match phit with
  | some d => (some d, st)
  | none =>
    match st.trc k with
    | some rd => (rd, st)
    | none =>
      let rd := resolveRel R p
      let trc' := fun q => if q = k then some rd else st.trc q
      let pc' := if cu && cf then cupdate st.pc k (.rel rd) else st.pc
      (rd, ⟨pc', trc'⟩)

/-- the phase-1 fan-out (lines 929-936), sequentialised. -/
def runPhase1 (R : Resolvers) (cu cf : Bool) :
    List (String × ParsedPurl) → P1State →
    List (String × ParsedPurl × Option Int) × P1State
  | [], st => ([], st)
  | (u, p) :: ws, st =>
    let r := fetchRelease R cu cf p st
    let rest := runPhase1 R cu cf ws r.2
    ((u, p, r.1) :: rest.1, rest.2)

/-! ## Alarm collection (source lines 938-945) -/

/-- `(now - rd).days`: Python's `timedelta.days` is the floor of the
duration in whole days (times in seconds here). -/
def ageDays (now rd : Int) : Int := (now - rd).fdiv 86400

structure Alarm where
  purl : String
  p : ParsedPurl
  rd : Int
  age : Int
deriving DecidableEq, Repr

/-- lines 938-945: skip unresolved dates; alarm iff `age_days > max_age_days`. -/
def collectAlarms (now maxAge : Int) (rs : List (String × ParsedPurl × Option Int)) :
    List Alarm :=
  rs.filterMap fun r =>
    match r.2.2 with
    | none => none
    | some rd =>
      if ageDays now rd > maxAge then some ⟨r.1, r.2.1, rd, ageDays now rd⟩ else none

/-! ## Phase 2: `fetch_latest_for_alarm` (source lines 948-1049) -/

structure P2State where
  pc : Cache
  tlc : String → Option String

/-- the five ecosystems for which the function assigns `cache_key`. -/
def knownType (t : String) : Bool :=
  t = "pypi" || t = "npm" || t = "maven" || t = "cocoapods" || t = "cargo"

/-- `priority_groups = ('com.google', 'androidx')` (lines 972-973);
`group.startswith(p)` as a character-level prefix test. -/
def isPriorityGroup (g : String) : Bool :=
  List.isPrefixOf "com.google".data g.data || List.isPrefixOf "androidx".data g.data

/-- lines 954-995: the candidate `latest` (with `src` for maven), read
from transient cache, then persistent cache, falling back to the network
resolver.  For maven, a persistent hit is *refreshed* when the group is a
priority group and the cached `source` is absent or `'central-fallback'`
(lines 971-983; the additional non-semver clause at lines 979-981 is
subsumed by the `src == 'central-fallback'` test).  Unknown ecosystems
leave `latest = None` and `cache_key = None`. -/
def latestCandidate (R : Resolvers) (p : ParsedPurl) (st : P2State) :
    Option String × Option String :=
  let k := latestKey p
  let l0 : Option String := (st.tlc k).orElse (fun _ => cachedLatestOf (st.pc k))
  if p.type = "pypi" then
    (match l0 with
     | some l => some l
     | none => R.pypiLatest p.name, none)
  else if p.type = "npm" then
    (match l0 with
     | some l => some l
     | none => R.npmLatest p.name, none)
  else if p.type = "maven" then
    let src0 := cachedSourceOf (st.pc k)
    let needRefresh := isPriorityGroup p.group &&
      (src0.isNone || decide (src0 = some "central-fallback"))
    if l0.isNone || needRefresh then R.mavenLatest p.group p.artifact
    else (l0, src0)
  else if p.type = "cocoapods" then
    (match l0 with
     | some l => some l
     | none => R.cocoapodsLatest p.name, none)
  else if p.type = "cargo" then
    (match l0 with
     | some l => some l
     | none => R.cratesLatest p.name, none)
  else (none, none)

/-- the release-date fetch used to validate a non-version-shaped `latest`
(lines 1009-1019); same dispatch order as the source; the raw datetime,
*not* normalised (unlike phase 1, nothing touches `tzinfo` here). -/
def relFetchForLatest (R : Resolvers) (p : ParsedPurl) (l : String) : Option PyDateTime :=
  if p.type = "maven" then R.mavenRelease p.group p.artifact l
  else if p.type = "pypi" then R.pypiRelease p.name l
  else if p.type = "npm" then R.npmRelease p.name l
  else if p.type = "cocoapods" then R.cocoapodsRelease p.name l
  else if p.type = "cargo" then R.cratesRelease p.name l
  else none

/-- the validation block (lines 997-1030): a version-shaped candidate is
accepted; otherwise its own release date is fetched and compared with
`latest_rd > rd` (line 1022).  When the fetched date is timezone-aware
the comparison decides survival; when it is timezone-naive the comparison
against the aware `rd` raises `TypeError`, which the block's outer
`except: pass` (lines 1028-1030, "be conservative and keep latest as-is")
swallows, so the candidate stays *unvalidated but surfaced*.  An
unresolved date leaves `validated = False` and the candidate is dropped
(lines 1025-1026). -/
def validateLatest (R : Resolvers) (p : ParsedPurl) (rd : Int) :
    Option String → Option String
  | none => none
  | some l =>
    if _is_semver_like l then some l
    else
      match relFetchForLatest R p l with
      | some d =>
        if d.aware then
          if d.t > rd then some l else none
        else some l
      | none => none

/-- the per-alarm record assembled at line 1049 (annotation is decided
later, at print time). -/
structure AlarmOut where
  purl : String
  p : ParsedPurl
  rd : Int
  age : Int
  latest : Option String
deriving DecidableEq, Repr

/-- `fetch_latest_for_alarm` (lines 948-1049): candidate, validation,
then the cache write-back (lines 1032-1047): the surviving `latest` is
written to the transient cache and — unless the persistent entry already
holds the same `latest` — stored with the freshly computed `newer`
verdict and, for maven, the `source` tag (`src` is unbound for the other
ecosystems, so `entry['source']` is never set there: the `NameError` is
swallowed at line 1045). -/
def fetchLatestForAlarm (R : Resolvers) (a : Alarm) (st : P2State) :
    AlarmOut × P2State :=
  let k := latestKey a.p
  let cand := latestCandidate R a.p st
  let latest2 := validateLatest R a.p a.rd cand.1
  let out : AlarmOut := ⟨a.purl, a.p, a.rd, a.age, latest2⟩
  match latest2 with
  | none => (out, st)
  | some l =>
    if knownType a.p.type then
      let tlc' := fun q => if q = k then some l else st.tlc q
      let doStore :=
        match st.pc k with
        | some (.lat l0 _ _) => decide (l0 ≠ l)
        | _ => true
      let pc' :=
        if doStore then
          cupdate st.pc k (.lat l (compareVersionsF a.p.version l a.p.type) cand.2)
        else st.pc
      (out, ⟨pc', tlc'⟩)
    else (out, st)

/-- the phase-2 fan-out (lines 1051-1058), sequentialised. -/
def runPhase2 (R : Resolvers) :
    List Alarm → P2State → List AlarmOut × P2State
  | [], st => ([], st)
  | a :: as, st =>
    let r := fetchLatestForAlarm R a st
    let rest := runPhase2 R as r.2
    (r.1 :: rest.1, rest.2)

/-! ## Printing: the `UPDATE_AVAILABLE` decision (source lines 1061-1077) -/

/-- `true` iff the printed ALARM line carries ` | UPDATE_AVAILABLE: ...`:
requires a surfaced `latest` different from the current version, and then
`newer is True or (newer is None and latest != version)` against the
persistent entry (lines 1064-1074). -/
def annotate (pc : Cache) (o : AlarmOut) : Bool :=
  match o.latest with
  | none => false
  | some l =>
    if l = o.p.version then false
    else
      let n := newerOf (pc (latestKey o.p))
      decide (n = some true) || (n.isNone && decide (l ≠ o.p.version))

/-! ## `analyze_sbom` (source lines 787-1089), SBOM reading, manifest
overlay and ignore filtering excluded (external collaborators) -/

/-- the work-item list (lines 863-879): parse each PURL, skip the ones
`parse_purl` rejects. -/
def workList (purls : List String) : List (String × ParsedPurl) :=
  purls.filterMap fun u => (parse_purl u).map fun p => (u, p)

/-- the engine of `analyze_sbom`: phase 1 over the work list, alarm
filter, phase 2 over the alarms, then the per-alarm annotation decision
against the final persistent cache.  Returns the annotated alarm records
and the persistent cache as saved at exit (lines 1082-1089 save it
unchanged).  `pcLoaded` models `_load_persistent_cache(cache_file)`,
consulted only when `check_updates` is set (line 818). -/
def analyze_sbom (R : Resolvers) (cu cf : Bool) (now maxAge : Int)
    (purls : List String) (pcLoaded : Cache) :
    List (AlarmOut × Bool) × Cache :=
  let pc0 : Cache := if cu && cf then pcLoaded else emptyCache
  let ph1 := runPhase1 R cu cf (workList purls) ⟨pc0, fun _ => none⟩
  let alarms := collectAlarms now maxAge ph1.1
  let ph2 := runPhase2 R alarms ⟨ph1.2.pc, fun _ => none⟩
  (ph2.1.map fun o => (o, annotate ph2.2.pc o), ph2.2.pc)

/-! ## `get_latest_maven_version` (source lines 389-546)

Each HTTP endpoint the function can consult becomes a query tag; the
oracle's `Except Unit (Option String)` answer means: `.error` — the
request raised (timeout, connection error, `raise_for_status`); `.ok
none` — the request completed but produced no version (non-200 status,
missing/unparsable field, empty listing); `.ok (some v)` — the tier
produced version `v` (the tier-internal choice among several candidate
strings is collapsed into the oracle).  The function returns the
`(latest, source-tag)` pair and the list of endpoints queried, in order.
-/

inductive MavenLatestQuery where
  /-- `https://repo1.maven.org/.../maven-metadata.xml` (lines 390-407) -/
  | repo1Meta
  /-- `https://dl.google.com/dl/android/maven2/.../` directory listing
  (lines 416-432 and 468-484) -/
  | googleDlDir
  /-- `https://maven.google.com/.../maven-metadata.xml` (lines 436-449
  and 488-501) -/
  | mavenGoogleMeta
  /-- `https://maven.google.com/.../` directory listing (lines 450-463
  and 503-516) -/
  | mavenGoogleDir
  /-- `search.maven.org` artifact-name-only broad search (lines 523-544) -/
  | centralArtifactSearch
deriving DecidableEq, Repr

/-- the `maven.google.com` metadata + directory-listing block, which the
source wraps in a single `try`: an exception while fetching the metadata
skips the directory listing of the same block; a metadata response that
merely yields no version still falls through to the listing. -/
def googleMetaDirBlock (o : MavenLatestQuery → Except Unit (Option String)) :
    Option (String × String) × List MavenLatestQuery :=
  match o .mavenGoogleMeta with
  | .ok (some v) => (some (v, "google-meta"), [.mavenGoogleMeta])
  | .ok none =>
    match o .mavenGoogleDir with
    | .ok (some v) => (some (v, "google-dir"), [.mavenGoogleMeta, .mavenGoogleDir])
    | _ => (none, [.mavenGoogleMeta, .mavenGoogleDir])
  | .error _ => (none, [.mavenGoogleMeta])

/-- `get_latest_maven_version(group, artifact)` (lines 389-546).
Structure: repo1 metadata always first; then, for priority groups
(`com.google*` / `androidx*`), the Google tiers (dl listing, then
maven.google metadata/listing); then — for every group — the same Google
tiers again, and finally the artifact-name-only central search; `(None,
None)` when everything failed (line 546). -/
def get_latest_maven_version (o : MavenLatestQuery → Except Unit (Option String))
    (group artifact : String) :
    Option (String × String) × List MavenLatestQuery :=
  match o .repo1Meta with
  | .ok (some v) => (some (v, "repo1"), [.repo1Meta])
  | _ =>
    let prioPart : Option (String × String) × List MavenLatestQuery :=
      if isPriorityGroup group then
        match o .googleDlDir with
        | .ok (some v) => (some (v, "google-dl"), [.googleDlDir])
        | _ =>
          let blk := googleMetaDirBlock o
          (blk.1, .googleDlDir :: blk.2)
      else (none, [])
    match prioPart.1 with
    | some r => (some r, .repo1Meta :: prioPart.2)
    | none =>
      let tailPart : Option (String × String) × List MavenLatestQuery :=
        match o .googleDlDir with
        | .ok (some v) => (some (v, "google-dl"), [.googleDlDir])
        | _ =>
          let blk := googleMetaDirBlock o
          match blk.1 with
          | some r => (some r, .googleDlDir :: blk.2)
          | none =>
            match o .centralArtifactSearch with
            | .ok (some v) =>
              (some (v, "central-fallback"),
               .googleDlDir :: blk.2 ++ [.centralArtifactSearch])
            | _ => (none, .googleDlDir :: blk.2 ++ [.centralArtifactSearch])
      (tailPart.1, .repo1Meta :: prioPart.2 ++ tailPart.2)

/-! ## `get_maven_release_date` (source lines 280-387)

Tier structure: the search-API timestamp; then the repo1 `.pom`
Last-Modified header via HEAD then GET (one `try`: an exception in the
HEAD skips the GET); then the Google mirrors — dl.google HEAD, and (only
if that request did not raise, since both sit in one outer `try`) the
maven.google HEAD (whose follow-up GET at lines 370-378 parses the POM
but never produces a date).  The per-call function-attribute memo
(`_cache`, lines 281-285) makes repeated calls return the first result;
the resolvers are deterministic functions here, which subsumes it. -/

inductive MavenRelQuery where
  | searchTs | repo1PomHead | repo1PomGet | googleDlHead | mavenGoogleHead
deriving DecidableEq, Repr

/-- the Google tier of `get_maven_release_date` (lines 337-383):
`.error` on the dl.google HEAD aborts the whole outer `try`, skipping
maven.google. -/
def mavenRelTier3 (o : MavenRelQuery → Except Unit (Option Int)) : Option Int :=
  match o .googleDlHead with
  | .ok (some d) => some d
  | .ok none =>
    match o .mavenGoogleHead with
    | .ok (some d) => some d
    | _ => none
  | .error _ => none

def get_maven_release_date (o : MavenRelQuery → Except Unit (Option Int))
    (group artifact version : String) : Option Int :=
  match o .searchTs with
  | .ok (some d) => some d
  | _ =>
    match o .repo1PomHead with
    | .ok (some d) => some d
    | .ok none =>
      match o .repo1PomGet with
      | .ok (some d) => some d
      | _ => mavenRelTier3 o
    | .error _ => mavenRelTier3 o

/-! ## Single-endpoint resolvers (source lines 251-277, 553-707)

Each talks to one endpoint; the oracle carries the parsed response
(`.error` = transport error / `raise_for_status` / JSON decode error,
collapsed with the code's blanket `except: return None`). -/

/-- `get_pypi_release_date` (lines 251-264): the response's `urls` list
(absent key = `none`), each entry's parsed `upload_time_iso_8601`
(absent = `none`); result is the earliest time. -/
def get_pypi_release_date (resp : Except Unit (Option (List (Option Int)))) : Option Int :=
  match resp with
  | .error _ => none
  | .ok none => none
  | .ok (some urls) =>
    if urls.isEmpty then none
    else
      let times := urls.filterMap id
      if times.isEmpty then none else times.min?

/-- `get_npm_release_date` (lines 267-277): the `time` map (absent key =
`none`), looked up at the requested version. -/
def get_npm_release_date (version : String)
    (resp : Except Unit (Option (String → Option Int))) : Option Int :=
  match resp with
  | .error _ => none
  | .ok none => none
  | .ok (some timeMap) => timeMap version

/-- the version scan of `get_cocoapods_release_date` (lines 614-629):
first entry matching the version *with a truthy `created_at`/`created`*
returns its parse result (`none` when both parse attempts fail); entries
matching without a date are passed over. -/
def cocoapodsFindCreated (version : String) :
    List (String × Option (Option Int)) → Option Int
  | [] => none
  | (n, c) :: rest =>
    if n = version then
      match c with
      | some parsed => parsed
      | none => cocoapodsFindCreated version rest
    else cocoapodsFindCreated version rest

/-- `get_cocoapods_release_date` (lines 605-631). -/
def get_cocoapods_release_date (name version : String)
    (resp : Except Unit (List (String × Option (Option Int)))) : Option Int :=
  if name = "" ∨ version = "" then none
  else
    match resp with
    | .error _ => none
    | .ok versions => cocoapodsFindCreated version versions

/-- the version scan of `get_crates_release_date` (lines 696-705), same
shape as the cocoapods one. -/
def cratesFindCreated (version : String) :
    List (String × Option (Option Int)) → Option Int
  | [] => none
  | (n, c) :: rest =>
    if n = version then
      match c with
      | some parsed => parsed
      | none => cratesFindCreated version rest
    else cratesFindCreated version rest

/-- `get_crates_release_date` (lines 687-707). -/
def get_crates_release_date (name version : String)
    (resp : Except Unit (List (String × Option (Option Int)))) : Option Int :=
  if name = "" ∨ version = "" then none
  else
    match resp with
    | .error _ => none
    | .ok versions => cratesFindCreated version versions

/-- lexicographic maximum of a string list: `sorted(l)[-1]`. -/
def maxString (l : List String) : Option String :=
  l.foldl
    (fun acc s =>
      match acc with
      | none => some s
      | some m => if m < s then some s else some m)
    none

/-- `get_latest_npm_version` (lines 553-567): `dist-tags.latest`, else the
lexicographically greatest key of `versions`. -/
def get_latest_npm_version
    (resp : Except Unit (Option String × List String)) : Option String :=
  match resp with
  | .error _ => none
  | .ok (distTag, versionKeys) =>
    match distTag with
    | some l => some l
    | none => if versionKeys.isEmpty then none else maxString versionKeys

/-- `get_latest_pypi_version` (lines 570-578): `info.version`. -/
def get_latest_pypi_version (resp : Except Unit (Option String)) : Option String :=
  match resp with
  | .error _ => none
  | .ok v => v

/-- `get_latest_cocoapods_version` (lines 581-602), in the
no-`semver`-library configuration: `sorted(set(versions))[-1]`. -/
def get_latest_cocoapods_version (name : String)
    (resp : Except Unit (List String)) : Option String :=
  if name = "" then none
  else
    match resp with
    | .error _ => none
    | .ok vs => if vs.isEmpty then none else maxString vs

/-- Python tuple-of-ints comparison (shorter tuple is smaller when it is
a prefix), for the crates `version_key` numeric-dot fallback. -/
def tupLt : List Nat → List Nat → Bool
  | [], [] => false
  | [], _ :: _ => true
  | _ :: _, [] => false
  | a :: as, b :: bs => if a = b then tupLt as bs else decide (a < b)

/-- maximum by the numeric-dot key (lines 656-680, no-library
configuration, `version_key(s) = (2, tuple-of-digit-runs)`); ties are
broken by the (hash-order-dependent in Python, list-order here) last
occurrence, matching `sorted(...)[-1]` stability up to `set()` order. -/
def maxByNumKey (l : List String) : Option String :=
  l.foldl
    (fun acc s =>
      match acc with
      | none => some s
      | some m => if tupLt (normSegs s) (normSegs m) then some m else some s)
    none

/-- `get_latest_crates_version` (lines 634-684): prefer non-yanked
versions, fall back to all, pick the maximum by the numeric-dot key. -/
def get_latest_crates_version (name : String)
    (resp : Except Unit (List (String × Bool))) : Option String :=
  if name = "" then none
  else
    match resp with
    | .error _ => none
    | .ok raw =>
      if raw.isEmpty then none
      else
        let nonYanked := (raw.filter (fun v => !v.2)).map (·.1)
        let candidates := if nonYanked.isEmpty then raw.map (·.1) else nonYanked
        if candidates.isEmpty then none else maxByNumKey candidates

/-! ## Theorems -/

/-- **C1.** For every component whose release date resolves, an alarm is
produced if and only if its age — the floor of `(now − release date)` in
whole days (`Int.fdiv`, matching Python's `timedelta.days`) — strictly
exceeds `max_age_days`; a component whose floored age equals or is below
the threshold produces no alarm (lines 938-945). -/
theorem alarm_iff_floored_age_exceeds_threshold (now maxAge : Int)
    (rs : List (String × ParsedPurl × Option Int)) (a : Alarm) :
    a ∈ collectAlarms now maxAge rs ↔
      ((a.purl, a.p, some a.rd) ∈ rs ∧
       a.age = (now - a.rd).fdiv 86400 ∧ a.age > maxAge) := by
  simp only [collectAlarms, List.mem_filterMap]
  constructor
  · rintro ⟨⟨u, p, rd?⟩, hr, hfr⟩
    cases rd? with
    | none => simp at hfr
    | some rd =>
      simp only [] at hfr
      split at hfr
      · cases hfr
        exact ⟨hr, rfl, by assumption⟩
      · cases hfr
  · rintro ⟨hr, hage, hgt⟩
    refine ⟨(a.purl, a.p, some a.rd), hr, ?_⟩
    simp only [ageDays]
    rw [if_pos (by rw [← hage]; exact hgt)]
    cases a
    simp_all [ageDays]

/-- **C2** (code bug): on the repository's own test input
`pkg:npm/%40scope%2Fname/package@2.0.0` (asserted decoded in
`tests/test_purl_and_utils.py`), `parse_purl` joins the path segments but
does **not** percent-decode them: the name keeps its `%40`/`%2F` escapes. -/
theorem parse_purl_keeps_percent_encoding :
    parse_purl "pkg:npm/%40scope%2Fname/package@2.0.0" =
      some { type := "npm", version := "2.0.0", name := "%40scope%2Fname/package" } ∧
    ("%40scope%2Fname/package" : String) ≠ "@scope/name/package" := by
  exact ⟨by decide, by decide⟩

/-- **C9** (counterexample): `compare_versions` returns the unknown
verdict on `("", "1.2.3")` although `"1.2.3"` contains numeric
components, so "unknown only if both candidates are fully non-numeric"
(and "numeric content forces a definite verdict") is false. -/
theorem compare_versions_unknown_with_numeric_input :
    compare_versions none none "" "1.2.3" "npm" = none ∧
    "1.2.3".data.any Char.isDigit = true := by
  exact ⟨by decide, by decide⟩

/-- **C9** (amended): for every pair of version strings and every
ecosystem — and regardless of whether the optional `packaging`/`semver`
orderings are available or succeed — `compare_versions` returns the
unknown verdict exactly when one of the two strings is empty; any two
non-empty strings (even fully non-numeric ones) get a definite
newer/not-newer verdict from the numeric-dot fallback. -/
theorem compare_versions_unknown_iff_empty (pypiCmp semverCmp : Option Bool)
    (current latest pkg_type : String) :
    compare_versions pypiCmp semverCmp current latest pkg_type = none ↔
      (current = "" ∨ latest = "") := by
  unfold compare_versions
  split
  · simp [*]
  · next h =>
    simp only [iff_false_intro h, iff_false]
    split
    · cases pypiCmp with
      | some b => simp
      | none => cases semverCmp <;> simp
    · cases semverCmp <;> simp

/-- **C10.** For an alarmed component whose surfaced latest differs from
the current version, the printed ALARM line carries `UPDATE_AVAILABLE`
exactly unless the stored comparison verdict is the boolean `false`: both
`newer is True` and `newer is None` (unknown) produce the annotation
(lines 1061-1077). -/
theorem update_marker_iff_not_known_older (pc : Cache) (o : AlarmOut) (l : String)
    (hl : o.latest = some l) (hne : l ≠ o.p.version) :
    annotate pc o = true ↔ newerOf (pc (latestKey o.p)) ≠ some false := by
  unfold annotate
  rw [hl]
  simp only [if_neg hne]
  cases h : newerOf (pc (latestKey o.p)) with
  | none => simp [hne]
  | some b => cases b <;> simp

/-- witness for `update_marker_iff_not_known_older`: a concrete alarmed
record with a differing latest and an unknown verdict is annotated. -/
theorem update_marker_iff_not_known_older_witness :
    annotate emptyCache ⟨"pkg:npm/foo@1.0", ⟨"npm", "1.0", "foo", "", ""⟩, 0, 400, some "2.0"⟩ = true := by
  have h := update_marker_iff_not_known_older emptyCache
      ⟨"pkg:npm/foo@1.0", ⟨"npm", "1.0", "foo", "", ""⟩, 0, 400, some "2.0"⟩
      "2.0" rfl (by decide)
  rw [h]
  decide

/-- the record returned by `fetch_latest_for_alarm` always carries the
alarm's fields and the post-validation `latest`. -/
theorem fetchLatestForAlarm_fst (R : Resolvers) (a : Alarm) (st : P2State) :
    (fetchLatestForAlarm R a st).1 =
      ⟨a.purl, a.p, a.rd, a.age,
       validateLatest R a.p a.rd (latestCandidate R a.p st).1⟩ := by
  unfold fetchLatestForAlarm
  cases h : validateLatest R a.p a.rd (latestCandidate R a.p st).1 with
  | none => simp [h]
  | some l => simp only [h]; split <;> rfl

/-- resolvers for the naive-date counterexample: npm `foo`'s registry
reports latest `v2.0`, and `v2.0`'s release timestamp parses without a
timezone offset (a naive datetime, line 274) at an instant *earlier*
than the component's own release date. -/
def Rc3 : Resolvers :=
  { Rfail with
    npmLatest := fun n => if n = "foo" then some "v2.0" else none,
    npmRelease := fun n v => if n = "foo" && v = "v2.0" then some ⟨0, false⟩ else none }

/-- **C3** (counterexample): a discovered latest candidate that is not
version-shaped (`v2.0`) whose own release date resolves timezone-naive at
an instant *not* later than the component's release date is nevertheless
surfaced: the naive/aware comparison `latest_rd > rd` at line 1022 raises
`TypeError`, the validation block's outer `except: pass` (lines
1028-1030) swallows it and keeps the candidate, and the record is even
annotated `UPDATE_AVAILABLE` — contradicting "surfaced only if its own
release date resolves and is strictly later". -/
theorem naive_latest_date_candidate_kept :
    ((fetchLatestForAlarm Rc3 ⟨"pkg:npm/foo@1.0", ⟨"npm", "1.0", "foo", "", ""⟩, 86400, 400⟩
        ⟨emptyCache, fun _ => none⟩).1.latest = some "v2.0") ∧
    annotate (fetchLatestForAlarm Rc3 ⟨"pkg:npm/foo@1.0", ⟨"npm", "1.0", "foo", "", ""⟩, 86400, 400⟩
        ⟨emptyCache, fun _ => none⟩).2.pc
      (fetchLatestForAlarm Rc3 ⟨"pkg:npm/foo@1.0", ⟨"npm", "1.0", "foo", "", ""⟩, 86400, 400⟩
        ⟨emptyCache, fun _ => none⟩).1 = true := by
  decide

/-- **C3** (amended): for every alarmed component, a discovered latest
candidate that is not version-shaped survives the validation block
(lines 997-1030) exactly as follows: if its own release date cannot be
resolved it is dropped; if the date resolves timezone-aware the candidate
is surfaced iff that date is strictly later than the component's release
date; if the date resolves timezone-naive the comparison at line 1022
raises `TypeError`, the outer `except: pass` swallows it and the candidate
is surfaced unvalidated.  A record without a surfaced latest never
carries the `UPDATE_AVAILABLE` annotation (lines 1061-1077). -/
theorem nonshaped_latest_validation_rule (R : Resolvers) (a : Alarm)
    (st : P2State) (l : String)
    (hc : (latestCandidate R a.p st).1 = some l)
    (hsv : _is_semver_like l = false) :
    ((fetchLatestForAlarm R a st).1.latest =
      match relFetchForLatest R a.p l with
      | some d => if d.aware then (if d.t > a.rd then some l else none) else some l
      | none => none) ∧
    (∀ pc : Cache, (fetchLatestForAlarm R a st).1.latest = none →
      annotate pc (fetchLatestForAlarm R a st).1 = false) := by
  rw [fetchLatestForAlarm_fst, hc]
  constructor
  · show validateLatest R a.p a.rd (some l) = _
    unfold validateLatest
    simp [hsv]
  · intro pc hnone
    simp only [AlarmOut.mk.injEq] at hnone ⊢
    show annotate pc ⟨a.purl, a.p, a.rd, a.age, _⟩ = false
    rw [show validateLatest R a.p a.rd (some l) = none from hnone]
    rfl

/-- witness for `nonshaped_latest_validation_rule`: a concrete
non-version-shaped candidate whose own release date does not resolve is
dropped and not annotated. -/
theorem nonshaped_latest_validation_rule_witness :
    (fetchLatestForAlarm Rfail ⟨"pkg:npm/foo@1.0", ⟨"npm", "1.0", "foo", "", ""⟩, 0, 400⟩
        ⟨cupdate emptyCache (latestKey ⟨"npm", "1.0", "foo", "", ""⟩)
          (.lat "v2.0" (some true) none), fun _ => none⟩).1.latest = none := by
  have h := nonshaped_latest_validation_rule Rfail
      ⟨"pkg:npm/foo@1.0", ⟨"npm", "1.0", "foo", "", ""⟩, 0, 400⟩
      ⟨cupdate emptyCache (latestKey ⟨"npm", "1.0", "foo", "", ""⟩)
        (.lat "v2.0" (some true) none), fun _ => none⟩
      "v2.0" (by decide) (by decide)
  rw [h.1]
  decide

/-- `splitOnce sep l = none` exactly when `sep` does not occur in `l`
(Python: `split(sep, 1)` yields a single piece and tuple unpacking raises). -/
theorem splitOnce_eq_none_iff (sep : Char) (l : List Char) :
    splitOnce sep l = none ↔ sep ∉ l := by
  induction l with
  | nil => simp [splitOnce]
  | cons c cs ih =>
    simp only [splitOnce, List.mem_cons]
    by_cases hc : c = sep
    · simp [hc]
    · rw [if_neg hc, Option.map_eq_none', ih]
      have hcs : ¬ sep = c := fun h => hc h.symm
      simp [hcs]

/-- **C8** (counterexample): a maven PURL missing the group segment does
*not* yield a null result — `parse_purl` returns a coordinate with an
empty group (lines 96-101 fill in `''`). -/
theorem parse_purl_maven_single_segment_parses :
    parse_purl "pkg:maven/lib-example@1.0" =
      some { type := "maven", version := "1.0", group := "", artifact := "lib-example" } ∧
    parse_purl "pkg:maven@1.0" =
      some { type := "maven", version := "1.0", group := "", artifact := "" } := by
  exact ⟨by decide, by decide⟩

/-- **C8** (amended): a PURL not starting with `pkg:` or missing the `@`
version separator yields a null result, the component is skipped and the
run continues unchanged (the whole analysis is the same function of the
remaining components); a maven PURL missing the group or artifact
segment is *not* rejected: it parses with the missing fields empty. -/
theorem malformed_purl_skipped :
    (∀ s : String, ¬ (("pkg:" : String).data <+: s.data) → parse_purl s = none) ∧
    (∀ l : List Char, '@' ∉ l → parse_purl (String.mk ('p' :: 'k' :: 'g' :: ':' :: l)) = none) ∧
    (∀ u : String, ∀ purls : List String, parse_purl u = none →
      workList (u :: purls) = workList purls) ∧
    (∀ (R : Resolvers) (cu cf : Bool) (now maxAge : Int) (u : String)
        (purls : List String) (pc : Cache), parse_purl u = none →
      analyze_sbom R cu cf now maxAge (u :: purls) pc =
        analyze_sbom R cu cf now maxAge purls pc) ∧
    (parse_purl "pkg:maven/lib-example@1.0" =
      some { type := "maven", version := "1.0", group := "", artifact := "lib-example" }) := by
  have hskip : ∀ u : String, ∀ purls : List String, parse_purl u = none →
      workList (u :: purls) = workList purls := by
    intro u purls hu
    simp [workList, hu]
  refine ⟨?_, ?_, hskip, ?_, by decide⟩
  · intro s hpre
    unfold parse_purl
    split
    · next l heq =>
      exact absurd ⟨l, by rw [heq]; rfl⟩ hpre
    · rfl
  · intro l hat
    unfold parse_purl
    show (match splitOnce '@' l with
      | none => none
      | some (mainPart, versionPart) => _) = none
    rw [(splitOnce_eq_none_iff '@' l).mpr hat]
  · intro R cu cf now maxAge u purls pc hu
    unfold analyze_sbom
    rw [hskip u purls hu]

/-- witness for `malformed_purl_skipped`: the repository's own test input
`"not-a-purl"` is rejected and contributes no work item. -/
theorem malformed_purl_skipped_witness :
    parse_purl "not-a-purl" = none ∧ workList ["not-a-purl"] = workList [] := by
  have h1 := malformed_purl_skipped.1 "not-a-purl" (by decide)
  exact ⟨h1, malformed_purl_skipped.2.2.1 "not-a-purl" [] h1⟩

/-- the order in which `get_latest_maven_version` can touch its endpoints
for a priority group: repo1 metadata first, then the Google tiers twice
(priority block, then the shared block), then the artifact-only search. -/
def mavenLatestPriorityOrder : List MavenLatestQuery :=
  [.repo1Meta, .googleDlDir, .mavenGoogleMeta, .mavenGoogleDir,
   .googleDlDir, .mavenGoogleMeta, .mavenGoogleDir, .centralArtifactSearch]

/-- the endpoint order for non-priority groups. -/
def mavenLatestDefaultOrder : List MavenLatestQuery :=
  [.repo1Meta, .googleDlDir, .mavenGoogleMeta, .mavenGoogleDir, .centralArtifactSearch]

/-- **C6** (counterexample): for the priority group `com.google.guava`
the *first* endpoint queried is the repo1 (primary mirror) metadata file,
not a secondary-mirror (Google) tier — the full all-failing trace starts
with `repo1Meta`. -/
theorem repo1_metadata_queried_first_for_priority_group :
    isPriorityGroup "com.google.guava" = true ∧
    (get_latest_maven_version (fun _ => .ok none) "com.google.guava" "guava").2 =
      mavenLatestPriorityOrder ∧
    (get_latest_maven_version (fun _ => .ok none) "com.google.guava" "guava").2.head? =
      some .repo1Meta := by
  refine ⟨by decide, by decide, by decide⟩

/-- the maven.google metadata+listing block queries its two endpoints in
order (possibly stopping after the metadata). -/
theorem googleMetaDirBlock_trace (o : MavenLatestQuery → Except Unit (Option String)) :
    (googleMetaDirBlock o).2 = [.mavenGoogleMeta] ∨
    (googleMetaDirBlock o).2 = [.mavenGoogleMeta, .mavenGoogleDir] := by
  unfold googleMetaDirBlock
  rcases h : o .mavenGoogleMeta with e | (_ | v)
  · simp
  · rcases h2 : o .mavenGoogleDir with e2 | (_ | v2) <;> simp
  · simp

set_option maxHeartbeats 4000000 in
/-- **C6** (amended): for *every* group the primary-mirror metadata tier
is queried first; priority groups then follow the order
`mavenLatestPriorityOrder` (Google directory listing, Google metadata,
Google listing — twice — then the artifact-only central search), other
groups the order `mavenLatestDefaultOrder`; there is no broad
group+artifact registry-search tier. -/
theorem maven_latest_tier_order (o : MavenLatestQuery → Except Unit (Option String))
    (g a : String) :
    (get_latest_maven_version o g a).2.head? = some .repo1Meta ∧
    (isPriorityGroup g = true →
      List.Sublist (get_latest_maven_version o g a).2 mavenLatestPriorityOrder) ∧
    (isPriorityGroup g = false →
      List.Sublist (get_latest_maven_version o g a).2 mavenLatestDefaultOrder) := by
  rcases googleMetaDirBlock_trace o with hblk | hblk <;>
    cases hp : isPriorityGroup g <;>
    rcases h1 : o .repo1Meta with e1 | (_ | v1) <;>
    rcases h2 : o .googleDlDir with e2 | (_ | v2) <;>
    rcases hb : (googleMetaDirBlock o).1 with _ | r <;>
    rcases h5 : o .centralArtifactSearch with e5 | (_ | v5) <;>
    simp [get_latest_maven_version, hp, h1, h2, hb, hblk, h5] <;>
    decide

/-- witness for `maven_latest_tier_order`: a concrete priority group's
trace is a sublist of the canonical priority order. -/
theorem maven_latest_tier_order_witness :
    List.Sublist (get_latest_maven_version (fun _ => .ok none) "androidx.core" "core").2
      mavenLatestPriorityOrder := by
  exact (maven_latest_tier_order (fun _ => .ok none) "androidx.core" "core").2.1 (by decide)

/-- a tier attempt that produced nothing: the request raised (swallowed
by the source's `except` clause) or completed without a usable value. -/
def failedQ {α : Type} (r : Except Unit (Option α)) : Prop :=
  r = .error () ∨ r = .ok none

/-- **C7.** Every resolver returns a null result when all its tiers fail
— including when the failures are raised exceptions (`.error`), which the
chains swallow rather than propagate — and a failed tier falls through to
the next tier (search API → repo1 `.pom` HEAD → repo1 `.pom` GET for
release dates; repo1 metadata → Google tiers for latest versions). -/
theorem resolver_chain_null_and_fallthrough :
    (∀ (o : MavenRelQuery → Except Unit (Option Int)) (g a v : String),
        (∀ q, failedQ (o q)) → get_maven_release_date o g a v = none) ∧
    (∀ (o : MavenLatestQuery → Except Unit (Option String)) (g a : String),
        (∀ q, failedQ (o q)) → (get_latest_maven_version o g a).1 = none) ∧
    (∀ r, failedQ r → get_pypi_release_date r = none) ∧
    (∀ (v : String) r, failedQ r → get_npm_release_date v r = none) ∧
    (∀ n v : String, get_cocoapods_release_date n v (.error ()) = none) ∧
    (∀ n v : String, get_crates_release_date n v (.error ()) = none) ∧
    (get_latest_npm_version (.error ()) = none) ∧
    (∀ r, failedQ r → get_latest_pypi_version r = none) ∧
    (∀ n : String, get_latest_cocoapods_version n (.error ()) = none) ∧
    (∀ n : String, get_latest_crates_version n (.error ()) = none) ∧
    (∀ (o : MavenRelQuery → Except Unit (Option Int)) (g a v : String) (d : Int),
        failedQ (o .searchTs) → o .repo1PomHead = .ok (some d) →
        get_maven_release_date o g a v = some d) ∧
    (∀ (o : MavenRelQuery → Except Unit (Option Int)) (g a v : String) (d : Int),
        failedQ (o .searchTs) → o .repo1PomHead = .ok none →
        o .repo1PomGet = .ok (some d) →
        get_maven_release_date o g a v = some d) ∧
    (∀ (o : MavenLatestQuery → Except Unit (Option String)) (g a lv : String),
        failedQ (o .repo1Meta) → isPriorityGroup g = false →
        o .googleDlDir = .ok (some lv) →
        (get_latest_maven_version o g a).1 = some (lv, "google-dl")) := by
  refine ⟨?_, ?_, ?_, ?_, ?_, ?_, rfl, ?_,
    fun n => by unfold get_latest_cocoapods_version; split <;> rfl,
    fun n => by unfold get_latest_crates_version; split <;> rfl, ?_, ?_, ?_⟩
  · intro o g a v h
    rcases h .searchTs with h1 | h1 <;>
      rcases h .repo1PomHead with h2 | h2 <;>
      rcases h .repo1PomGet with h3 | h3 <;>
      rcases h .googleDlHead with h4 | h4 <;>
      rcases h .mavenGoogleHead with h5 | h5 <;>
      simp [get_maven_release_date, mavenRelTier3, h1, h2, h3, h4, h5]
  · intro o g a h
    cases hp : isPriorityGroup g <;>
      rcases h .repo1Meta with h1 | h1 <;>
      rcases h .googleDlDir with h2 | h2 <;>
      rcases h .mavenGoogleMeta with h3 | h3 <;>
      rcases h .mavenGoogleDir with h4 | h4 <;>
      rcases h .centralArtifactSearch with h5 | h5 <;>
      simp [get_latest_maven_version, googleMetaDirBlock, hp, h1, h2, h3, h4, h5]
  · rintro r (rfl | rfl) <;> rfl
  · rintro v r (rfl | rfl) <;> rfl
  · intro n v
    unfold get_cocoapods_release_date
    split <;> rfl
  · intro n v
    unfold get_crates_release_date
    split <;> rfl
  · rintro r (rfl | rfl) <;> rfl
  · intro o g a v d h1 h2
    rcases h1 with h1 | h1 <;> simp [get_maven_release_date, h1, h2]
  · intro o g a v d h1 h2 h3
    rcases h1 with h1 | h1 <;> simp [get_maven_release_date, h1, h2, h3]
  · intro o g a lv h1 hp h2
    rcases h1 with h1 | h1 <;>
      simp [get_latest_maven_version, googleMetaDirBlock, h1, hp, h2]

/-- witness for `resolver_chain_null_and_fallthrough`: with every request
raising, the maven chains and the single-endpoint resolvers all yield
null. -/
theorem resolver_chain_null_and_fallthrough_witness :
    get_maven_release_date (fun _ => .error ()) "g" "a" "1.0" = none ∧
    (get_latest_maven_version (fun _ => .error ()) "g" "a").1 = none ∧
    get_pypi_release_date (.error ()) = none := by
  refine ⟨resolver_chain_null_and_fallthrough.1 (fun _ => .error ()) "g" "a" "1.0"
      (fun q => Or.inl rfl),
    resolver_chain_null_and_fallthrough.2.1 (fun _ => .error ()) "g" "a"
      (fun q => Or.inl rfl),
    resolver_chain_null_and_fallthrough.2.2.1 (.error ()) (Or.inl rfl)⟩

/-! ### Derived pipeline lemmas (shared by the cache claims) -/

/-- a release-date cache hit with a non-null date short-circuits
`fetch_release` without touching any state. -/
theorem fetchRelease_cached_hit (R : Resolvers) (p : ParsedPurl) (st : P1State) (d : Int)
    (hpc : st.pc (releaseKey p) = some (.rel (some d))) :
    fetchRelease R true true p st = (some d, st) := by
  unfold fetchRelease
  simp [hpc]

/-- a latest-version cache hit is served from the cache — except for the
maven priority-group refresh — and the result does not depend on the
resolvers. -/
theorem latestCandidate_cached_eq (R : Resolvers) (p : ParsedPurl) (st : P2State)
    (l : String) (n : Option Bool) (s : Option String)
    (hpc : st.pc (latestKey p) = some (.lat l n s))
    (htlc : st.tlc (latestKey p) = none ∨ st.tlc (latestKey p) = some l)
    (hk : knownType p.type = true)
    (hcond : ¬(p.type = "maven" ∧ isPriorityGroup p.group = true ∧
        (s = none ∨ s = some "central-fallback"))) :
    latestCandidate R p st = (some l, if p.type = "maven" then s else none) := by
  simp only [knownType, Bool.or_eq_true, decide_eq_true_eq] at hk
  rcases htlc with htlc | htlc
  all_goals rcases hk with ((((h | h) | h) | h) | h)
  · simp [latestCandidate, h, htlc, hpc, cachedLatestOf, Option.orElse]
  · simp [latestCandidate, h, htlc, hpc, cachedLatestOf, Option.orElse]
  · have hnr : ¬(isPriorityGroup p.group = true ∧
        (s = none ∨ s = some "central-fallback")) :=
      fun hh => hcond ⟨h, hh.1, hh.2⟩
    by_cases hprio : isPriorityGroup p.group = true
    · have hs1 : ¬ s = none := fun hh => hnr ⟨hprio, Or.inl hh⟩
      have hs2 : ¬ s = some "central-fallback" := fun hh => hnr ⟨hprio, Or.inr hh⟩
      simp [latestCandidate, h, htlc, hpc, cachedLatestOf, cachedSourceOf,
        Option.orElse, hprio, hs1, hs2, Option.isNone_iff_eq_none]
    · simp [latestCandidate, h, htlc, hpc, cachedLatestOf, cachedSourceOf,
        Option.orElse, hprio]
  · simp [latestCandidate, h, htlc, hpc, cachedLatestOf, Option.orElse]
  · simp [latestCandidate, h, htlc, hpc, cachedLatestOf, Option.orElse]
  · simp [latestCandidate, h, htlc, hpc, cachedLatestOf, Option.orElse]
  · simp [latestCandidate, h, htlc, hpc, cachedLatestOf, Option.orElse]
  · have hnr : ¬(isPriorityGroup p.group = true ∧
        (s = none ∨ s = some "central-fallback")) :=
      fun hh => hcond ⟨h, hh.1, hh.2⟩
    by_cases hprio : isPriorityGroup p.group = true
    · have hs1 : ¬ s = none := fun hh => hnr ⟨hprio, Or.inl hh⟩
      have hs2 : ¬ s = some "central-fallback" := fun hh => hnr ⟨hprio, Or.inr hh⟩
      simp [latestCandidate, h, htlc, hpc, cachedLatestOf, cachedSourceOf,
        Option.orElse, hprio, hs1, hs2, Option.isNone_iff_eq_none]
    · simp [latestCandidate, h, htlc, hpc, cachedLatestOf, cachedSourceOf,
        Option.orElse, hprio]
  · simp [latestCandidate, h, htlc, hpc, cachedLatestOf, Option.orElse]
  · simp [latestCandidate, h, htlc, hpc, cachedLatestOf, Option.orElse]

/-- an alarmed priority-group maven coordinate whose persistent entry was
cached from the central artifact-only fallback. -/
def pPrio : ParsedPurl :=
  { type := "maven", version := "1.0", group := "com.google.x", artifact := "art" }

def stPrio : P2State :=
  ⟨cupdate emptyCache (latestKey pPrio) (.lat "1.2.3" (some true) (some "central-fallback")),
   fun _ => none⟩

def RPrio : Resolvers :=
  { Rfail with mavenLatest := fun _ _ => (some "9.9.9", some "repo1") }

/-- **C5** (counterexample): a persistent latest hit for a priority-group
maven coordinate whose `source` is `central-fallback` is *not* used: the
candidate is re-fetched from the network (it tracks the resolver, not the
cached `"1.2.3"`), so cache entries are not trusted regardless of their
source tag. -/
theorem priority_central_fallback_entry_refreshed :
    cachedLatestOf (stPrio.pc (latestKey pPrio)) = some "1.2.3" ∧
    latestCandidate RPrio pPrio stPrio = (some "9.9.9", some "repo1") ∧
    latestCandidate Rfail pPrio stPrio = (none, none) := by
  refine ⟨by decide, by decide, by decide⟩

/-- **C5** (amended): persistent entries carry no TTL and are trusted
within and across runs, *except* the documented refresh: a release-date
hit is used without any lookup whenever its stored date is non-null, and
a latest-version hit is used without any lookup unless the coordinate is
a priority-group maven one whose stored source tag is absent or
`central-fallback` (resolver-independence of the result is the formal
"no re-verification"). -/
theorem cache_hit_trust_conditions :
    (∀ (RA RB : Resolvers) (p : ParsedPurl) (st : P1State) (d : Int),
        st.pc (releaseKey p) = some (.rel (some d)) →
        fetchRelease RA true true p st = (some d, st) ∧
        fetchRelease RA true true p st = fetchRelease RB true true p st) ∧
    (∀ (RA RB : Resolvers) (p : ParsedPurl) (st : P2State) (l : String)
        (n : Option Bool) (s : Option String),
        st.pc (latestKey p) = some (.lat l n s) →
        st.tlc (latestKey p) = none →
        knownType p.type = true →
        ¬(p.type = "maven" ∧ isPriorityGroup p.group = true ∧
          (s = none ∨ s = some "central-fallback")) →
        latestCandidate RA p st = (some l, if p.type = "maven" then s else none) ∧
        latestCandidate RA p st = latestCandidate RB p st) := by
  constructor
  · intro RA RB p st d hpc
    exact ⟨fetchRelease_cached_hit RA p st d hpc,
      (fetchRelease_cached_hit RA p st d hpc).trans
        (fetchRelease_cached_hit RB p st d hpc).symm⟩
  · intro RA RB p st l n s hpc htlc hk hcond
    exact ⟨latestCandidate_cached_eq RA p st l n s hpc (Or.inl htlc) hk hcond,
      (latestCandidate_cached_eq RA p st l n s hpc (Or.inl htlc) hk hcond).trans
        (latestCandidate_cached_eq RB p st l n s hpc (Or.inl htlc) hk hcond).symm⟩

/-- witness for `cache_hit_trust_conditions`: a cached npm release date
and a cached non-priority maven latest are served from the cache with all
resolvers failing. -/
theorem cache_hit_trust_conditions_witness :
    (fetchRelease Rfail true true ⟨"npm", "1.0", "foo", "", ""⟩
      ⟨cupdate emptyCache (releaseKey ⟨"npm", "1.0", "foo", "", ""⟩) (.rel (some 5)),
       fun _ => none⟩).1 = some 5 ∧
    latestCandidate Rfail ⟨"maven", "1.0", "", "org.x", "art"⟩
      ⟨cupdate emptyCache (latestKey ⟨"maven", "1.0", "", "org.x", "art"⟩)
        (.lat "2.0" (some true) (some "repo1")), fun _ => none⟩ =
      (some "2.0", some "repo1") := by
  constructor
  · rw [(cache_hit_trust_conditions.1 Rfail Rfail ⟨"npm", "1.0", "foo", "", ""⟩
      ⟨cupdate emptyCache (releaseKey ⟨"npm", "1.0", "foo", "", ""⟩) (.rel (some 5)),
       fun _ => none⟩ 5 (by decide)).1]
  · have h := (cache_hit_trust_conditions.2 Rfail Rfail ⟨"maven", "1.0", "", "org.x", "art"⟩
      ⟨cupdate emptyCache (latestKey ⟨"maven", "1.0", "", "org.x", "art"⟩)
        (.lat "2.0" (some true) (some "repo1")), fun _ => none⟩
      "2.0" (some true) (some "repo1") (by decide) rfl (by decide)
      (by rintro ⟨-, hpr, -⟩; exact absurd hpr (by decide))).1
    rw [h]
    decide

/-! ### Cold-cache phase behaviour (towards the cache-idempotence claim) -/

/-- the latest-version candidate fetched when neither cache holds the key
(the per-ecosystem resolver calls of lines 955-993). -/
def freshLatest (R : Resolvers) (p : ParsedPurl) : Option String × Option String :=
  if p.type = "pypi" then (R.pypiLatest p.name, none)
  else if p.type = "npm" then (R.npmLatest p.name, none)
  else if p.type = "maven" then R.mavenLatest p.group p.artifact
  else if p.type = "cocoapods" then (R.cocoapodsLatest p.name, none)
  else if p.type = "cargo" then (R.cratesLatest p.name, none)
  else (none, none)

/-- the post-validation latest of an alarm resolved against the network
(lines 997-1030 applied to the fresh candidate). -/
def freshVal (R : Resolvers) (a : Alarm) : Option String :=
  validateLatest R a.p a.rd (freshLatest R a.p).1

/-- the alarm record produced by a phase-2 item resolved against the
network. -/
def freshOut (R : Resolvers) (a : Alarm) : AlarmOut :=
  ⟨a.purl, a.p, a.rd, a.age, freshVal R a⟩

theorem latestCandidate_fresh (R : Resolvers) (p : ParsedPurl) (st : P2State)
    (hpc : st.pc (latestKey p) = none) (htlc : st.tlc (latestKey p) = none) :
    latestCandidate R p st = freshLatest R p := by
  unfold latestCandidate freshLatest
  simp only [htlc, hpc, cachedLatestOf, cachedSourceOf, Option.orElse]
  split_ifs <;> first | rfl | simp_all

theorem freshLatest_unknown (R : Resolvers) (p : ParsedPurl)
    (hk : knownType p.type = false) :
    freshLatest R p = (none, none) := by
  simp only [knownType, Bool.or_eq_false_iff, decide_eq_false_iff_not] at hk
  simp [freshLatest, hk.1.1.1.1, hk.1.1.1.2, hk.1.1.2, hk.1.2, hk.2]

theorem resolveRel_Rfail (p : ParsedPurl) : resolveRel Rfail p = none := by
  unfold resolveRel resolveRelRaw Rfail
  split_ifs <;> rfl

theorem freshLatest_Rfail (p : ParsedPurl) : freshLatest Rfail p = (none, none) := by
  unfold freshLatest Rfail
  split_ifs <;> rfl

theorem relFetchForLatest_Rfail (p : ParsedPurl) (l : String) :
    relFetchForLatest Rfail p l = none := by
  unfold relFetchForLatest Rfail
  split_ifs <;> rfl

/-- release keys and latest keys live in disjoint namespaces. -/
theorem releaseKey_ne_latestKey (p q : ParsedPurl) : releaseKey p ≠ latestKey q := by
  have h1 : (releaseKey p).data.head? = some 'r' := by
    unfold releaseKey
    split_ifs <;> simp [String.data_append]
  have h2 : (latestKey q).data.head? = some 'l' := by
    unfold latestKey
    split_ifs <;> simp [String.data_append]
  intro heq
  rw [heq, h2] at h1
  simp at h1

theorem fetchRelease_miss_none (R : Resolvers) (p : ParsedPurl) (st : P1State)
    (hpc : st.pc (releaseKey p) = none) (htrc : st.trc (releaseKey p) = none) :
    fetchRelease R true true p st =
      (resolveRel R p,
       ⟨cupdate st.pc (releaseKey p) (.rel (resolveRel R p)),
        fun q => if q = releaseKey p then some (resolveRel R p) else st.trc q⟩) := by
  unfold fetchRelease
  simp [hpc, htrc, cupdate]

theorem fetchRelease_miss_relnone (R : Resolvers) (p : ParsedPurl) (st : P1State)
    (hpc : st.pc (releaseKey p) = some (.rel none)) (htrc : st.trc (releaseKey p) = none) :
    fetchRelease R true true p st =
      (resolveRel R p,
       ⟨cupdate st.pc (releaseKey p) (.rel (resolveRel R p)),
        fun q => if q = releaseKey p then some (resolveRel R p) else st.trc q⟩) := by
  unfold fetchRelease
  simp [hpc, htrc, cupdate]

/-- a persistent `.rel` hit whose transient mirror holds the same value
is served without touching any state (covers the null-date case: the
persistent entry is skipped at line 888 but the transient one answers at
line 892). -/
theorem fetchRelease_memo_hit (R : Resolvers) (p : ParsedPurl) (st : P1State)
    (v : Option Int)
    (hpc : st.pc (releaseKey p) = some (.rel v))
    (htrc : st.trc (releaseKey p) = some v) :
    fetchRelease R true true p st = (v, st) := by
  unfold fetchRelease
  cases v with
  | some d => simp [hpc]
  | none => simp [hpc, htrc]

/-- first-wins update of the transient release memo. -/
def memoSet (m : String → Option (Option Int)) (k : String) (v : Option Int) :
    String → Option (Option Int) :=
  fun q => if q = k then some v else m q

/-- the transient memo a phase-1 run builds over its work list: each item
takes the memo's value at its release key if present (duplicate keys
reuse the first resolution) and otherwise resolves and records it. -/
def p1Memo (R : Resolvers) : List (String × ParsedPurl) →
    (String → Option (Option Int)) → String → Option (Option Int)
  | [], m => m
  | (_, p) :: ws, m =>
    p1Memo R ws (memoSet m (releaseKey p) ((m (releaseKey p)).getD (resolveRel R p)))

/-- the per-item results of the same memoised fold. -/
def p1Results (R : Resolvers) : List (String × ParsedPurl) →
    (String → Option (Option Int)) → List (String × ParsedPurl × Option Int)
  | [], _ => []
  | (u, p) :: ws, m =>
    (u, p, (m (releaseKey p)).getD (resolveRel R p)) ::
      p1Results R ws (memoSet m (releaseKey p) ((m (releaseKey p)).getD (resolveRel R p)))

/-- the memo is first-wins: a key once set never changes. -/
theorem p1Memo_mono (R : Resolvers) (ws : List (String × ParsedPurl)) :
    ∀ (m : String → Option (Option Int)) (k : String) (v : Option Int),
    m k = some v → p1Memo R ws m k = some v := by
  induction ws with
  | nil => intro m k v h; exact h
  | cons w ws ih =>
    obtain ⟨u, p⟩ := w
    intro m k v h
    rw [p1Memo]
    apply ih
    by_cases hq : k = releaseKey p
    · rw [hq] at h
      simp [memoSet, hq, h, Option.getD_some]
    · simp [memoSet, hq, h]

/-- keys outside the work list keep their initial memo value. -/
theorem p1Memo_untouched (R : Resolvers) (ws : List (String × ParsedPurl)) :
    ∀ (m : String → Option (Option Int)) (k : String),
    (∀ w ∈ ws, releaseKey w.2 ≠ k) → p1Memo R ws m k = m k := by
  induction ws with
  | nil => intro m k _; rfl
  | cons w ws ih =>
    obtain ⟨u, p⟩ := w
    intro m k hk
    have hne : releaseKey p ≠ k := hk (u, p) (List.mem_cons_self _ _)
    rw [p1Memo, ih _ k (fun w' hw' => hk w' (List.mem_cons_of_mem _ hw'))]
    simp only [memoSet]
    rw [if_neg (fun h => hne h.symm)]

/-- each item's reported value is the final memo's value at its key. -/
theorem p1Results_eq (R : Resolvers) (ws : List (String × ParsedPurl)) :
    ∀ m, p1Results R ws m =
      ws.map (fun w => (w.1, w.2, (p1Memo R ws m (releaseKey w.2)).getD none)) := by
  induction ws with
  | nil => intro m; rfl
  | cons w ws ih =>
    obtain ⟨u, p⟩ := w
    intro m
    have hself : p1Memo R ws (memoSet m (releaseKey p)
        ((m (releaseKey p)).getD (resolveRel R p))) (releaseKey p) =
        some ((m (releaseKey p)).getD (resolveRel R p)) := by
      apply p1Memo_mono
      simp [memoSet]
    simp only [p1Results, p1Memo, List.map_cons]
    rw [ih, hself]
    simp [Option.getD_some]

/-- the final memo is defined at every work key. -/
theorem p1Memo_defined (R : Resolvers) (ws : List (String × ParsedPurl)) :
    ∀ m, ∀ w ∈ ws, ∃ v, p1Memo R ws m (releaseKey w.2) = some v := by
  induction ws with
  | nil => intro m w hw; exact absurd hw (List.not_mem_nil w)
  | cons w ws ih =>
    obtain ⟨u, p⟩ := w
    intro m w' hw'
    rcases List.mem_cons.mp hw' with heq | hw'
    · subst heq
      refine ⟨(m (releaseKey p)).getD (resolveRel R p), ?_⟩
      rw [p1Memo]
      apply p1Memo_mono
      simp [memoSet]
    · simp only [p1Memo]
      exact ih _ w' hw'

/-- during a phase 1 whose persistent and transient caches are in
lockstep — the cold first run starts from empty ones — the run is
exactly the pure memoised fold `p1Results`/`p1Memo`, duplicate release
keys included: a later duplicate is answered by the persistent entry
(lines 885-890) or the transient one (line 892). -/
theorem runPhase1_memo (R : Resolvers) (ws : List (String × ParsedPurl)) :
    ∀ (st : P1State) (m : String → Option (Option Int)),
    (∀ k, st.trc k = m k) →
    (∀ k, st.pc k = (m k).map CacheEntry.rel) →
    (runPhase1 R true true ws st).1 = p1Results R ws m ∧
    (∀ k, (runPhase1 R true true ws st).2.trc k = p1Memo R ws m k) ∧
    (∀ k, (runPhase1 R true true ws st).2.pc k = (p1Memo R ws m k).map CacheEntry.rel) := by
  induction ws with
  | nil =>
    intro st m h1 h2
    exact ⟨rfl, h1, h2⟩
  | cons w ws ih =>
    obtain ⟨u, p⟩ := w
    intro st m h1 h2
    cases hv : m (releaseKey p) with
    | some v =>
      have htrck : st.trc (releaseKey p) = some v := (h1 _).trans hv
      have hpck : st.pc (releaseKey p) = some (.rel v) := by
        rw [h2, hv]
        rfl
      have hstep : fetchRelease R true true p st = (v, st) :=
        fetchRelease_memo_hit R p st v hpck htrck
      have hm' : ∀ k, st.trc k = memoSet m (releaseKey p) v k := by
        intro k
        by_cases hk : k = releaseKey p <;> simp [memoSet, hk, htrck, h1 k, hv]
      have hp' : ∀ k, st.pc k = (memoSet m (releaseKey p) v k).map CacheEntry.rel := by
        intro k
        by_cases hk : k = releaseKey p <;> simp [memoSet, hk, hpck, h2 k, hv]
      obtain ⟨ih1, ih2, ih3⟩ := ih st (memoSet m (releaseKey p) v) hm' hp'
      rw [runPhase1]
      simp only [hstep, p1Results, p1Memo, hv, Option.getD_some]
      exact ⟨by rw [ih1], ih2, ih3⟩
    | none =>
      have htrck : st.trc (releaseKey p) = none := (h1 _).trans hv
      have hpck : st.pc (releaseKey p) = none := by
        rw [h2, hv]
        rfl
      have hstep := fetchRelease_miss_none R p st hpck htrck
      have hm' : ∀ k,
          (fun q => if q = releaseKey p then some (resolveRel R p) else st.trc q) k =
            memoSet m (releaseKey p) (resolveRel R p) k := by
        intro k
        by_cases hk : k = releaseKey p <;> simp [memoSet, hk, h1 k]
      have hp' : ∀ k, (cupdate st.pc (releaseKey p) (.rel (resolveRel R p))) k =
          (memoSet m (releaseKey p) (resolveRel R p) k).map CacheEntry.rel := by
        intro k
        by_cases hk : k = releaseKey p <;> simp [memoSet, cupdate, hk, h2 k]
      obtain ⟨ih1, ih2, ih3⟩ := ih
        ⟨cupdate st.pc (releaseKey p) (.rel (resolveRel R p)),
         fun q => if q = releaseKey p then some (resolveRel R p) else st.trc q⟩
        (memoSet m (releaseKey p) (resolveRel R p)) hm' hp'
      rw [runPhase1]
      simp only [hstep, p1Results, p1Memo, hv, Option.getD_none]
      exact ⟨by rw [ih1], ih2, ih3⟩

/-- with a persistent cache recording every work item's resolution and
all-failing resolvers, phase 1 reproduces the recorded results —
duplicate keys included — and leaves the persistent cache unchanged. -/
theorem runPhase1_replay (val : String → Option (Option Int))
    (ws : List (String × ParsedPurl)) :
    ∀ st : P1State,
    (∀ w ∈ ws, ∃ v, val (releaseKey w.2) = some v ∧
        st.pc (releaseKey w.2) = some (.rel v)) →
    (∀ k v, st.trc k = some v → v = none ∧ st.pc k = some (.rel none)) →
    (runPhase1 Rfail true true ws st).1 =
      ws.map (fun w => (w.1, w.2, (val (releaseKey w.2)).getD none)) ∧
    (runPhase1 Rfail true true ws st).2.pc = st.pc := by
  induction ws with
  | nil => intro st _ _; exact ⟨rfl, rfl⟩
  | cons w ws ih =>
    obtain ⟨u, p⟩ := w
    intro st hval htrc
    obtain ⟨v, hv, hpck⟩ := hval (u, p) (List.mem_cons_self _ _)
    cases v with
    | some d =>
      have hstep : fetchRelease Rfail true true p st = (some d, st) :=
        fetchRelease_cached_hit Rfail p st d hpck
      obtain ⟨ih1, ih2⟩ := ih st
        (fun w' hw' => hval w' (List.mem_cons_of_mem _ hw')) htrc
      rw [runPhase1]
      simp only [hstep, List.map_cons, hv, Option.getD_some]
      exact ⟨by rw [ih1], ih2⟩
    | none =>
      cases htrck : st.trc (releaseKey p) with
      | some w0 =>
        obtain ⟨hw0, -⟩ := htrc _ _ htrck
        subst hw0
        have hstep : fetchRelease Rfail true true p st = (none, st) :=
          fetchRelease_memo_hit Rfail p st none hpck htrck
        obtain ⟨ih1, ih2⟩ := ih st
          (fun w' hw' => hval w' (List.mem_cons_of_mem _ hw')) htrc
        rw [runPhase1]
        simp only [hstep, List.map_cons, hv, Option.getD_some]
        exact ⟨by rw [ih1], ih2⟩
      | none =>
        have hstep := fetchRelease_miss_relnone Rfail p st hpck htrck
        rw [resolveRel_Rfail] at hstep
        have hfix : cupdate st.pc (releaseKey p) (.rel none) = st.pc := by
          funext q
          unfold cupdate
          split
          · next hq => rw [hq, hpck]
          · rfl
        rw [hfix] at hstep
        have htrc' : ∀ k v,
            (fun q => if q = releaseKey p then some none else st.trc q) k = some v →
            v = none ∧ st.pc k = some (.rel none) := by
          intro k v hk
          simp only [] at hk
          by_cases hq : k = releaseKey p
          · rw [if_pos hq] at hk
            refine ⟨(Option.some.inj hk).symm, ?_⟩
            rw [hq]
            exact hpck
          · rw [if_neg hq] at hk
            exact htrc k v hk
        obtain ⟨ih1, ih2⟩ := ih
          ⟨st.pc, fun q => if q = releaseKey p then some none else st.trc q⟩
          (fun w' hw' => hval w' (List.mem_cons_of_mem _ hw')) htrc'
        rw [runPhase1]
        simp only [hstep, List.map_cons, hv, Option.getD_some]
        exact ⟨by rw [ih1], ih2⟩

/-- coherence of a latest-cache key: two alarms whose coordinates build
the same key agree on the fields the latest-version lookup reads (their
versions may differ).  Natural duplicates — several alarmed versions of
one package — satisfy this; only crafted group/artifact collisions in
the maven `group:artifact` key (line 965) escape it. -/
def sameCoord (a b : Alarm) : Prop :=
  latestKey a.p = latestKey b.p →
    a.p.type = b.p.type ∧ a.p.name = b.p.name ∧
    a.p.group = b.p.group ∧ a.p.artifact = b.p.artifact

/-- the latest-version lookup only reads type, name, group and artifact. -/
theorem freshLatest_congr (R : Resolvers) (p q : ParsedPurl)
    (ht : p.type = q.type) (hn : p.name = q.name)
    (hg : p.group = q.group) (ha : p.artifact = q.artifact) :
    freshLatest R p = freshLatest R q := by
  unfold freshLatest
  rw [ht, hn, hg, ha]

/-- the validation block returns either its candidate or nothing. -/
theorem validateLatest_cases (R : Resolvers) (p : ParsedPurl) (rd : Int)
    (c : Option String) :
    validateLatest R p rd c = c ∨ validateLatest R p rd c = none := by
  cases c with
  | none => exact Or.inr rfl
  | some l =>
    simp only [validateLatest]
    split_ifs with hs
    · exact Or.inl rfl
    · cases hrf : relFetchForLatest R p l with
      | none => exact Or.inr (by simp [hrf])
      | some d =>
        cases hdw : d.aware with
        | false => exact Or.inl (by simp [hrf, hdw])
        | true =>
          by_cases hgt : d.t > rd
          · exact Or.inl (by simp [hrf, hdw, hgt])
          · exact Or.inr (by simp [hrf, hdw, hgt])

/-- a surviving validation result is the candidate itself. -/
theorem validateLatest_some_eq (R : Resolvers) (p : ParsedPurl) (rd : Int)
    (c : Option String) (l : String) (h : validateLatest R p rd c = some l) :
    c = some l := by
  rcases validateLatest_cases R p rd c with hc | hc
  · exact hc.symm.trans h
  · rw [hc] at h
    exact Option.noConfusion h

/-- only the five known ecosystems can surface a latest. -/
theorem freshVal_knownType (R : Resolvers) (a : Alarm) (l : String)
    (h : freshVal R a = some l) : knownType a.p.type = true := by
  by_contra hk
  have hkf : knownType a.p.type = false := by
    cases hkk : knownType a.p.type
    · rfl
    · exact absurd hkk hk
  unfold freshVal at h
  rw [freshLatest_unknown R a.p hkf] at h
  simp [validateLatest] at h

/-- two alarms agreeing on the lookup coordinates surface the same
latest, as long as every survivor is version-shaped (the validation of
a shaped candidate ignores the differing release dates). -/
theorem freshVal_congr (R : Resolvers) (a b : Alarm)
    (ht : a.p.type = b.p.type) (hn : a.p.name = b.p.name)
    (hg : a.p.group = b.p.group) (hart : a.p.artifact = b.p.artifact)
    (hsa : ∀ l, freshVal R a = some l → _is_semver_like l = true)
    (hsb : ∀ l, freshVal R b = some l → _is_semver_like l = true) :
    freshVal R a = freshVal R b := by
  have hfl : freshLatest R a.p = freshLatest R b.p :=
    freshLatest_congr R a.p b.p ht hn hg hart
  unfold freshVal
  rw [← hfl]
  cases hc : (freshLatest R a.p).1 with
  | none => rfl
  | some l =>
    by_cases hs : _is_semver_like l = true
    · simp [validateLatest, hs]
    · have hfva : freshVal R a = validateLatest R a.p a.rd (some l) := by
        unfold freshVal
        rw [hc]
      have hfvb : freshVal R b = validateLatest R b.p b.rd (some l) := by
        unfold freshVal
        rw [← hfl, hc]
      have hna : validateLatest R a.p a.rd (some l) = none := by
        rcases validateLatest_cases R a.p a.rd (some l) with h | h
        · exact absurd (hsa l (hfva.trans h)) hs
        · exact h
      have hnb : validateLatest R b.p b.rd (some l) = none := by
        rcases validateLatest_cases R b.p b.rd (some l) with h | h
        · exact absurd (hsb l (hfvb.trans h)) hs
        · exact h
      rw [hna, hnb]

/-- a first-run phase 2 over an alarm list whose equal keys agree on
coordinates: every item — also one whose key was already resolved by an
earlier duplicate — reports the network answer `freshOut`; the final
entry under each alarmed key pairs the surviving latest with its source
(the `newer` verdict is the first writer's, hence existentially
quantified); other keys are untouched. -/
theorem runPhase2_first (R : Resolvers) (as : List Alarm) :
    ∀ st : P2State,
    as.Pairwise sameCoord →
    (∀ a ∈ as, ∀ l, freshVal R a = some l → _is_semver_like l = true) →
    (∀ a ∈ as, a.p.type = "maven" → isPriorityGroup a.p.group = true →
        ∀ l, freshVal R a = some l →
        (freshLatest R a.p).2 ≠ none ∧ (freshLatest R a.p).2 ≠ some "central-fallback") →
    (∀ a ∈ as,
        (st.pc (latestKey a.p) = none ∧ st.tlc (latestKey a.p) = none) ∨
        (∃ l, freshVal R a = some l ∧ st.tlc (latestKey a.p) = some l ∧
          ∃ n, st.pc (latestKey a.p) = some (.lat l n (freshLatest R a.p).2))) →
    (runPhase2 R as st).1 = as.map (freshOut R) ∧
    (∀ a ∈ as, ∃ n, (runPhase2 R as st).2.pc (latestKey a.p) =
        (freshVal R a).map (fun l => CacheEntry.lat l n (freshLatest R a.p).2)) ∧
    (∀ k, (∀ a ∈ as, latestKey a.p ≠ k) → (runPhase2 R as st).2.pc k = st.pc k) := by
  induction as with
  | nil =>
    intro st _ _ _ _
    exact ⟨rfl, fun a ha => absurd ha (List.not_mem_nil a), fun k _ => rfl⟩
  | cons a as ih =>
    intro st hcoh hsv hprio hinv
    rw [List.pairwise_cons] at hcoh
    obtain ⟨hhead, htail⟩ := hcoh
    rcases hinv a (List.mem_cons_self _ _) with ⟨hpck, htlck⟩ | ⟨l, hfv, htlck, n0, hpck⟩
    · -- both caches miss the head's key: the head resolves afresh
      have hcand := latestCandidate_fresh R a.p st hpck htlck
      cases hfv : freshVal R a with
      | none =>
        have hval : validateLatest R a.p a.rd (freshLatest R a.p).1 = none := hfv
        have hstep : fetchLatestForAlarm R a st = (freshOut R a, st) := by
          unfold fetchLatestForAlarm
          simp [hcand, hval, freshOut, freshVal]
        obtain ⟨ih1, ih2, ih3⟩ := ih st htail
          (fun a' ha' => hsv a' (List.mem_cons_of_mem _ ha'))
          (fun a' ha' => hprio a' (List.mem_cons_of_mem _ ha'))
          (fun a' ha' => hinv a' (List.mem_cons_of_mem _ ha'))
        rw [runPhase2]
        simp only [hstep]
        refine ⟨by rw [ih1, List.map_cons], ?_, ?_⟩
        · intro a' ha'
          rcases List.mem_cons.mp ha' with heq | ha'
          · rw [heq]
            by_cases hdup : ∃ b ∈ as, latestKey b.p = latestKey a.p
            · obtain ⟨b, hb, hkb⟩ := hdup
              obtain ⟨n1, hn1⟩ := ih2 b hb
              have hco := hhead b hb hkb.symm
              have hfvb : freshVal R b = freshVal R a :=
                (freshVal_congr R a b hco.1 hco.2.1 hco.2.2.1 hco.2.2.2
                  (hsv a (List.mem_cons_self _ _))
                  (hsv b (List.mem_cons_of_mem _ hb))).symm
              refine ⟨n1, ?_⟩
              rw [← hkb, hn1, hfvb, hfv]
              rfl
            · refine ⟨none, ?_⟩
              rw [ih3 (latestKey a.p) (fun b hb hkb => hdup ⟨b, hb, hkb⟩), hpck, hfv]
              rfl
          · exact ih2 a' ha'
        · intro k hk
          exact ih3 k (fun b hb => hk b (List.mem_cons_of_mem _ hb))
      | some l =>
        have hval : validateLatest R a.p a.rd (freshLatest R a.p).1 = some l := hfv
        have hkt : knownType a.p.type = true := freshVal_knownType R a l hfv
        have hstep : fetchLatestForAlarm R a st =
            (freshOut R a,
             ⟨cupdate st.pc (latestKey a.p)
                (.lat l (compareVersionsF a.p.version l a.p.type) (freshLatest R a.p).2),
              fun q => if q = latestKey a.p then some l else st.tlc q⟩) := by
          unfold fetchLatestForAlarm
          simp [hcand, hval, freshOut, freshVal, hkt, hpck, cupdate]
        have hinv' : ∀ a' ∈ as,
            ((cupdate st.pc (latestKey a.p)
                (.lat l (compareVersionsF a.p.version l a.p.type) (freshLatest R a.p).2))
                (latestKey a'.p) = none ∧
              (fun q => if q = latestKey a.p then some l else st.tlc q)
                (latestKey a'.p) = none) ∨
            (∃ l', freshVal R a' = some l' ∧
              (fun q => if q = latestKey a.p then some l else st.tlc q)
                (latestKey a'.p) = some l' ∧
              ∃ n, (cupdate st.pc (latestKey a.p)
                (.lat l (compareVersionsF a.p.version l a.p.type) (freshLatest R a.p).2))
                (latestKey a'.p) = some (.lat l' n (freshLatest R a'.p).2)) := by
          intro a' ha'
          by_cases hkb : latestKey a'.p = latestKey a.p
          · right
            have hco := hhead a' ha' hkb.symm
            have hfva' : freshVal R a' = some l :=
              (freshVal_congr R a a' hco.1 hco.2.1 hco.2.2.1 hco.2.2.2
                (hsv a (List.mem_cons_self _ _))
                (hsv a' (List.mem_cons_of_mem _ ha'))).symm.trans hfv
            have hflb : freshLatest R a'.p = freshLatest R a.p :=
              (freshLatest_congr R a.p a'.p hco.1 hco.2.1 hco.2.2.1 hco.2.2.2).symm
            refine ⟨l, hfva', ?_, compareVersionsF a.p.version l a.p.type, ?_⟩
            · simp only []
              rw [if_pos hkb]
            · unfold cupdate
              rw [if_pos hkb, hflb]
          · rcases hinv a' (List.mem_cons_of_mem _ ha') with ⟨h1, h2⟩ | ⟨l', h1, h2, n', h3⟩
            · left
              constructor
              · unfold cupdate
                rw [if_neg hkb]
                exact h1
              · simp only []
                rw [if_neg hkb]
                exact h2
            · right
              refine ⟨l', h1, ?_, n', ?_⟩
              · simp only []
                rw [if_neg hkb]
                exact h2
              · unfold cupdate
                rw [if_neg hkb]
                exact h3
        obtain ⟨ih1, ih2, ih3⟩ := ih
          ⟨cupdate st.pc (latestKey a.p)
              (.lat l (compareVersionsF a.p.version l a.p.type) (freshLatest R a.p).2),
           fun q => if q = latestKey a.p then some l else st.tlc q⟩
          htail
          (fun a' ha' => hsv a' (List.mem_cons_of_mem _ ha'))
          (fun a' ha' => hprio a' (List.mem_cons_of_mem _ ha'))
          hinv'
        rw [runPhase2]
        simp only [hstep]
        refine ⟨by rw [ih1, List.map_cons], ?_, ?_⟩
        · intro a' ha'
          rcases List.mem_cons.mp ha' with heq | ha'
          · rw [heq]
            by_cases hdup : ∃ b ∈ as, latestKey b.p = latestKey a.p
            · obtain ⟨b, hb, hkb⟩ := hdup
              obtain ⟨n1, hn1⟩ := ih2 b hb
              have hco := hhead b hb hkb.symm
              have hfvb : freshVal R b = some l :=
                (freshVal_congr R a b hco.1 hco.2.1 hco.2.2.1 hco.2.2.2
                  (hsv a (List.mem_cons_self _ _))
                  (hsv b (List.mem_cons_of_mem _ hb))).symm.trans hfv
              have hflb : freshLatest R b.p = freshLatest R a.p :=
                (freshLatest_congr R a.p b.p hco.1 hco.2.1 hco.2.2.1 hco.2.2.2).symm
              rw [hkb, hfvb, hflb] at hn1
              refine ⟨n1, ?_⟩
              rw [hfv]
              exact hn1
            · refine ⟨compareVersionsF a.p.version l a.p.type, ?_⟩
              rw [ih3 (latestKey a.p) (fun b hb hkb => hdup ⟨b, hb, hkb⟩)]
              show cupdate st.pc (latestKey a.p)
                  (.lat l (compareVersionsF a.p.version l a.p.type) (freshLatest R a.p).2)
                  (latestKey a.p) = _
              unfold cupdate
              rw [if_pos rfl, hfv]
              rfl
          · exact ih2 a' ha'
        · intro k hk
          rw [ih3 k (fun b hb => hk b (List.mem_cons_of_mem _ hb))]
          show cupdate st.pc (latestKey a.p)
              (.lat l (compareVersionsF a.p.version l a.p.type) (freshLatest R a.p).2)
              k = st.pc k
          unfold cupdate
          rw [if_neg (fun hkk => hk a (List.mem_cons_self _ _) hkk.symm)]
    · -- the head's key was already resolved by an earlier duplicate
      have hval : validateLatest R a.p a.rd (freshLatest R a.p).1 = some l := hfv
      have hkt : knownType a.p.type = true := freshVal_knownType R a l hfv
      have hsl : _is_semver_like l = true := hsv a (List.mem_cons_self _ _) l hfv
      have hcond : ¬(a.p.type = "maven" ∧ isPriorityGroup a.p.group = true ∧
          ((freshLatest R a.p).2 = none ∨ (freshLatest R a.p).2 = some "central-fallback")) := by
        rintro ⟨hm, hpr, hsrc⟩
        rcases hprio a (List.mem_cons_self _ _) hm hpr l hfv with ⟨hn1, hn2⟩
        rcases hsrc with h | h
        · exact hn1 h
        · exact hn2 h
      have hcand := latestCandidate_cached_eq R a.p st l n0 ((freshLatest R a.p).2)
        hpck (Or.inr htlck) hkt hcond
      have hvall : validateLatest R a.p a.rd (some l) = some l := by
        unfold validateLatest
        simp [hsl]
      have hstep : fetchLatestForAlarm R a st =
          (freshOut R a,
           ⟨st.pc, fun q => if q = latestKey a.p then some l else st.tlc q⟩) := by
        unfold fetchLatestForAlarm
        simp [hcand, hvall, freshOut, freshVal, hval, hkt, hpck]
      have hinv' : ∀ a' ∈ as,
          (st.pc (latestKey a'.p) = none ∧
            (fun q => if q = latestKey a.p then some l else st.tlc q)
              (latestKey a'.p) = none) ∨
          (∃ l', freshVal R a' = some l' ∧
            (fun q => if q = latestKey a.p then some l else st.tlc q)
              (latestKey a'.p) = some l' ∧
            ∃ n, st.pc (latestKey a'.p) = some (.lat l' n (freshLatest R a'.p).2)) := by
        intro a' ha'
        by_cases hkb : latestKey a'.p = latestKey a.p
        · right
          have hco := hhead a' ha' hkb.symm
          have hfva' : freshVal R a' = some l :=
            (freshVal_congr R a a' hco.1 hco.2.1 hco.2.2.1 hco.2.2.2
              (hsv a (List.mem_cons_self _ _))
              (hsv a' (List.mem_cons_of_mem _ ha'))).symm.trans hfv
          have hflb : freshLatest R a'.p = freshLatest R a.p :=
            (freshLatest_congr R a.p a'.p hco.1 hco.2.1 hco.2.2.1 hco.2.2.2).symm
          refine ⟨l, hfva', ?_, n0, ?_⟩
          · simp only []
            rw [if_pos hkb]
          · rw [hkb, hpck, hflb]
        · rcases hinv a' (List.mem_cons_of_mem _ ha') with ⟨h1, h2⟩ | ⟨l', h1, h2, n', h3⟩
          · left
            refine ⟨h1, ?_⟩
            simp only []
            rw [if_neg hkb]
            exact h2
          · right
            refine ⟨l', h1, ?_, n', h3⟩
            simp only []
            rw [if_neg hkb]
            exact h2
      obtain ⟨ih1, ih2, ih3⟩ := ih
        ⟨st.pc, fun q => if q = latestKey a.p then some l else st.tlc q⟩
        htail
        (fun a' ha' => hsv a' (List.mem_cons_of_mem _ ha'))
        (fun a' ha' => hprio a' (List.mem_cons_of_mem _ ha'))
        hinv'
      rw [runPhase2]
      simp only [hstep]
      refine ⟨by rw [ih1, List.map_cons], ?_, ?_⟩
      · intro a' ha'
        rcases List.mem_cons.mp ha' with heq | ha'
        · rw [heq]
          by_cases hdup : ∃ b ∈ as, latestKey b.p = latestKey a.p
          · obtain ⟨b, hb, hkb⟩ := hdup
            obtain ⟨n1, hn1⟩ := ih2 b hb
            have hco := hhead b hb hkb.symm
            have hfvb : freshVal R b = some l :=
              (freshVal_congr R a b hco.1 hco.2.1 hco.2.2.1 hco.2.2.2
                (hsv a (List.mem_cons_self _ _))
                (hsv b (List.mem_cons_of_mem _ hb))).symm.trans hfv
            have hflb : freshLatest R b.p = freshLatest R a.p :=
              (freshLatest_congr R a.p b.p hco.1 hco.2.1 hco.2.2.1 hco.2.2.2).symm
            rw [hkb, hfvb, hflb] at hn1
            refine ⟨n1, ?_⟩
            rw [hfv]
            exact hn1
          · refine ⟨n0, ?_⟩
            rw [ih3 (latestKey a.p) (fun b hb hkb => hdup ⟨b, hb, hkb⟩)]
            show st.pc (latestKey a.p) = _
            rw [hpck, hfv]
            rfl
        · exact ih2 a' ha'
      · intro k hk
        exact ih3 k (fun b hb => hk b (List.mem_cons_of_mem _ hb))

/-- a replay phase 2 with all-failing resolvers over a persistent cache
holding each alarmed key's first-run entry reproduces the first-run
records — duplicate keys included — and leaves the persistent cache
unchanged. -/
theorem runPhase2_replay (R : Resolvers) (as : List Alarm) :
    ∀ st : P2State,
    as.Pairwise sameCoord →
    (∀ a ∈ as, ∀ l, freshVal R a = some l → _is_semver_like l = true) →
    (∀ a ∈ as, a.p.type = "maven" → isPriorityGroup a.p.group = true →
        ∀ l, freshVal R a = some l →
        (freshLatest R a.p).2 ≠ none ∧ (freshLatest R a.p).2 ≠ some "central-fallback") →
    (∀ a ∈ as, ∃ n, st.pc (latestKey a.p) =
        (freshVal R a).map (fun l => CacheEntry.lat l n (freshLatest R a.p).2)) →
    (∀ a ∈ as, st.tlc (latestKey a.p) = none ∨
        ∃ l, freshVal R a = some l ∧ st.tlc (latestKey a.p) = some l) →
    (runPhase2 Rfail as st).1 = as.map (freshOut R) ∧
    (runPhase2 Rfail as st).2.pc = st.pc := by
  induction as with
  | nil => intro st _ _ _ _ _; exact ⟨rfl, rfl⟩
  | cons a as ih =>
    intro st hcoh hsv hprio hpc htlc
    rw [List.pairwise_cons] at hcoh
    obtain ⟨hhead, htail⟩ := hcoh
    obtain ⟨n0, hpck⟩ := hpc a (List.mem_cons_self _ _)
    cases hfv : freshVal R a with
    | none =>
      rw [hfv] at hpck
      simp only [Option.map_none'] at hpck
      have htlck : st.tlc (latestKey a.p) = none := by
        rcases htlc a (List.mem_cons_self _ _) with h | ⟨l', hl', -⟩
        · exact h
        · rw [hfv] at hl'
          exact Option.noConfusion hl'
      have hcand : latestCandidate Rfail a.p st = (none, none) := by
        rw [latestCandidate_fresh Rfail a.p st hpck htlck, freshLatest_Rfail]
      have hout : freshOut R a = ⟨a.purl, a.p, a.rd, a.age, none⟩ := by
        unfold freshOut
        rw [hfv]
      have hstep : fetchLatestForAlarm Rfail a st = (freshOut R a, st) := by
        unfold fetchLatestForAlarm
        rw [hout]
        simp [hcand, validateLatest]
      obtain ⟨ih1, ih2⟩ := ih st htail
        (fun a' ha' => hsv a' (List.mem_cons_of_mem _ ha'))
        (fun a' ha' => hprio a' (List.mem_cons_of_mem _ ha'))
        (fun a' ha' => hpc a' (List.mem_cons_of_mem _ ha'))
        (fun a' ha' => htlc a' (List.mem_cons_of_mem _ ha'))
      rw [runPhase2]
      simp only [hstep]
      exact ⟨by rw [ih1, List.map_cons], ih2⟩
    | some l =>
      have hkt : knownType a.p.type = true := freshVal_knownType R a l hfv
      have hsl : _is_semver_like l = true := hsv a (List.mem_cons_self _ _) l hfv
      rw [hfv] at hpck
      simp only [Option.map_some'] at hpck
      have hcond : ¬(a.p.type = "maven" ∧ isPriorityGroup a.p.group = true ∧
          ((freshLatest R a.p).2 = none ∨ (freshLatest R a.p).2 = some "central-fallback")) := by
        rintro ⟨hm, hpr, hsrc⟩
        rcases hprio a (List.mem_cons_self _ _) hm hpr l hfv with ⟨hn1, hn2⟩
        rcases hsrc with h | h
        · exact hn1 h
        · exact hn2 h
      have htlck : st.tlc (latestKey a.p) = none ∨ st.tlc (latestKey a.p) = some l := by
        rcases htlc a (List.mem_cons_self _ _) with h | ⟨l', hl', h⟩
        · exact Or.inl h
        · rw [hfv] at hl'
          exact Or.inr (by rw [h, Option.some.inj hl'])
      have hcand := latestCandidate_cached_eq Rfail a.p st l n0 ((freshLatest R a.p).2)
        hpck htlck hkt hcond
      have hvall : validateLatest Rfail a.p a.rd (some l) = some l := by
        unfold validateLatest
        simp [hsl]
      have hout : freshOut R a = ⟨a.purl, a.p, a.rd, a.age, some l⟩ := by
        unfold freshOut
        rw [hfv]
      have hstep : fetchLatestForAlarm Rfail a st =
          (freshOut R a,
           ⟨st.pc, fun q => if q = latestKey a.p then some l else st.tlc q⟩) := by
        unfold fetchLatestForAlarm
        rw [hout]
        simp [hcand, hvall, hkt, hpck]
      have htlc' : ∀ a' ∈ as,
          (fun q => if q = latestKey a.p then some l else st.tlc q)
            (latestKey a'.p) = none ∨
          ∃ l', freshVal R a' = some l' ∧
            (fun q => if q = latestKey a.p then some l else st.tlc q)
              (latestKey a'.p) = some l' := by
        intro a' ha'
        by_cases hkb : latestKey a'.p = latestKey a.p
        · right
          have hco := hhead a' ha' hkb.symm
          have hfva' : freshVal R a' = some l :=
            (freshVal_congr R a a' hco.1 hco.2.1 hco.2.2.1 hco.2.2.2
              (hsv a (List.mem_cons_self _ _))
              (hsv a' (List.mem_cons_of_mem _ ha'))).symm.trans hfv
          refine ⟨l, hfva', ?_⟩
          simp only []
          rw [if_pos hkb]
        · rcases htlc a' (List.mem_cons_of_mem _ ha') with h | ⟨l', h1, h2⟩
          · left
            simp only []
            rw [if_neg hkb]
            exact h
          · right
            refine ⟨l', h1, ?_⟩
            simp only []
            rw [if_neg hkb]
            exact h2
      obtain ⟨ih1, ih2⟩ := ih
        ⟨st.pc, fun q => if q = latestKey a.p then some l else st.tlc q⟩
        htail
        (fun a' ha' => hsv a' (List.mem_cons_of_mem _ ha'))
        (fun a' ha' => hprio a' (List.mem_cons_of_mem _ ha'))
        (fun a' ha' => hpc a' (List.mem_cons_of_mem _ ha'))
        htlc'
      rw [runPhase2]
      simp only [hstep]
      exact ⟨by rw [ih1, List.map_cons], ih2⟩

set_option maxHeartbeats 1000000 in
/-- **C4** (amended): a second run over the same SBOM with every resolver
failing reproduces the first run's alarms and update annotations —
duplicate release or latest cache keys included (several alarmed
versions of one package are fine) — provided (a) alarms colliding on a
latest cache key agree on the key's coordinate fields (no crafted maven
`group:artifact` collisions, line 965), (b) every latest surfaced by
the first run is version-shaped, and (c) every alarmed priority-group
(`com.google*`/`androidx*`) maven component's discovered source tag is
present and differs from `central-fallback`.  Without (b) the cached
non-version-shaped latest is re-validated by a network release-date
fetch each run (lines 1006-1026) and without (c) the priority-group
entry is re-fetched (lines 971-983); with failing resolvers both lose
their `UPDATE_AVAILABLE` annotation — see the counterexample. -/
theorem second_run_with_cache_reproduces_output (R : Resolvers) (now maxAge : Int)
    (purls : List String)
    (hcoh : (collectAlarms now maxAge
        (runPhase1 R true true (workList purls) ⟨emptyCache, fun _ => none⟩).1).Pairwise
        sameCoord)
    (hsv : ∀ a ∈ collectAlarms now maxAge
        (runPhase1 R true true (workList purls) ⟨emptyCache, fun _ => none⟩).1,
      ∀ l, freshVal R a = some l → _is_semver_like l = true)
    (hprio : ∀ a ∈ collectAlarms now maxAge
        (runPhase1 R true true (workList purls) ⟨emptyCache, fun _ => none⟩).1,
      a.p.type = "maven" → isPriorityGroup a.p.group = true →
      ∀ l, freshVal R a = some l →
        (freshLatest R a.p).2 ≠ none ∧ (freshLatest R a.p).2 ≠ some "central-fallback") :
    (analyze_sbom Rfail true true now maxAge purls
        (analyze_sbom R true true now maxAge purls emptyCache).2).1 =
      (analyze_sbom R true true now maxAge purls emptyCache).1 := by
  have hana : ∀ (RX : Resolvers) (pcL : Cache),
      analyze_sbom RX true true now maxAge purls pcL =
        ((runPhase2 RX (collectAlarms now maxAge
            (runPhase1 RX true true (workList purls) ⟨pcL, fun _ => none⟩).1)
            ⟨(runPhase1 RX true true (workList purls) ⟨pcL, fun _ => none⟩).2.pc,
             fun _ => none⟩).1.map
          (fun o => (o, annotate (runPhase2 RX (collectAlarms now maxAge
            (runPhase1 RX true true (workList purls) ⟨pcL, fun _ => none⟩).1)
            ⟨(runPhase1 RX true true (workList purls) ⟨pcL, fun _ => none⟩).2.pc,
             fun _ => none⟩).2.pc o)),
         (runPhase2 RX (collectAlarms now maxAge
            (runPhase1 RX true true (workList purls) ⟨pcL, fun _ => none⟩).1)
            ⟨(runPhase1 RX true true (workList purls) ⟨pcL, fun _ => none⟩).2.pc,
             fun _ => none⟩).2.pc) :=
    fun RX pcL => rfl
  set ws := workList purls with hws
  -- run 1, phase 1: the cold caches are in lockstep, so phase 1 is the
  -- pure memoised fold
  obtain ⟨h11, h12, h13⟩ := runPhase1_memo R ws ⟨emptyCache, fun _ => none⟩
    (fun _ => none) (fun _ => rfl) (fun _ => rfl)
  set M1 := p1Memo R ws (fun _ => none) with hM1
  set PH1 := runPhase1 R true true ws ⟨emptyCache, fun _ => none⟩ with hPH1
  set A := collectAlarms now maxAge PH1.1 with hA
  -- run 1, phase 2: all alarmed latest keys start cold (release keys and
  -- latest keys are disjoint)
  have hinv1 : ∀ a ∈ A,
      ((⟨PH1.2.pc, fun _ => none⟩ : P2State).pc (latestKey a.p) = none ∧
        (⟨PH1.2.pc, fun _ => none⟩ : P2State).tlc (latestKey a.p) = none) ∨
      (∃ l, freshVal R a = some l ∧
        (⟨PH1.2.pc, fun _ => none⟩ : P2State).tlc (latestKey a.p) = some l ∧
        ∃ n, (⟨PH1.2.pc, fun _ => none⟩ : P2State).pc (latestKey a.p) =
          some (.lat l n (freshLatest R a.p).2)) := by
    intro a ha
    left
    constructor
    · show PH1.2.pc (latestKey a.p) = none
      rw [h13, hM1, p1Memo_untouched R ws (fun _ => none) (latestKey a.p)
        (fun w _ => releaseKey_ne_latestKey w.2 a.p)]
      rfl
    · rfl
  obtain ⟨h21, h22, h23⟩ := runPhase2_first R A ⟨PH1.2.pc, fun _ => none⟩
    hcoh hsv hprio hinv1
  set PH2 := runPhase2 R A ⟨PH1.2.pc, fun _ => none⟩ with hPH2
  set PC1 := PH2.2.pc with hPC1
  have h1r := hana R emptyCache
  rw [← hPH1, ← hA, ← hPH2] at h1r
  rw [← hPC1, h21] at h1r
  -- run 2, phase 1: every work key carries its first-run resolution
  have hval2 : ∀ w ∈ ws, ∃ v, M1 (releaseKey w.2) = some v ∧
      (⟨PC1, fun _ => none⟩ : P1State).pc (releaseKey w.2) = some (.rel v) := by
    intro w hw
    obtain ⟨v, hv⟩ := p1Memo_defined R ws (fun _ => none) w hw
    refine ⟨v, by rw [hM1]; exact hv, ?_⟩
    show PC1 (releaseKey w.2) = some (.rel v)
    rw [h23 (releaseKey w.2) (fun a _ => (releaseKey_ne_latestKey w.2 a.p).symm)]
    show PH1.2.pc (releaseKey w.2) = some (.rel v)
    rw [h13, hM1, hv]
    rfl
  have htrc2 : ∀ k v, (⟨PC1, fun _ => none⟩ : P1State).trc k = some v →
      v = none ∧ (⟨PC1, fun _ => none⟩ : P1State).pc k = some (.rel none) := by
    intro k v h
    exact Option.noConfusion h
  obtain ⟨h31, h32⟩ := runPhase1_replay M1 ws ⟨PC1, fun _ => none⟩ hval2 htrc2
  set PH1b := runPhase1 Rfail true true ws ⟨PC1, fun _ => none⟩ with hPH1b
  -- both runs report the same phase-1 results, hence the same alarms
  have hres : PH1b.1 = PH1.1 := by
    rw [h31, h11, p1Results_eq, hM1]
  have hA2 : collectAlarms now maxAge PH1b.1 = A := by
    rw [hres, hA]
  -- run 2, phase 2: each alarmed key carries its first-run entry
  have hpc2 : ∀ a ∈ A, ∃ n, (⟨PH1b.2.pc, fun _ => none⟩ : P2State).pc (latestKey a.p) =
      (freshVal R a).map (fun l => CacheEntry.lat l n (freshLatest R a.p).2) := by
    intro a ha
    obtain ⟨n, hn⟩ := h22 a ha
    refine ⟨n, ?_⟩
    show PH1b.2.pc (latestKey a.p) = _
    rw [h32]
    exact hn
  have htlc2 : ∀ a ∈ A, (⟨PH1b.2.pc, fun _ => none⟩ : P2State).tlc (latestKey a.p) = none ∨
      ∃ l, freshVal R a = some l ∧
        (⟨PH1b.2.pc, fun _ => none⟩ : P2State).tlc (latestKey a.p) = some l :=
    fun a _ => Or.inl rfl
  obtain ⟨h41, h42⟩ := runPhase2_replay R A ⟨PH1b.2.pc, fun _ => none⟩
    hcoh hsv hprio hpc2 htlc2
  have hpc2b : (runPhase2 Rfail A ⟨PH1b.2.pc, fun _ => none⟩).2.pc = PC1 := by
    rw [h42]
    show PH1b.2.pc = PC1
    rw [h32]
  have h2r := hana Rfail PC1
  rw [← hPH1b] at h2r
  rw [hA2] at h2r
  rw [h41, hpc2b] at h2r
  rw [h1r]
  show (analyze_sbom Rfail true true now maxAge purls PC1).1 = _
  rw [h2r]

/-- resolvers for the cache-idempotence counterexample: an npm package
whose "latest" is not version-shaped (`v2.0`) but is validated by its
newer release date during the first run. -/
def Rc4 : Resolvers :=
  { Rfail with
    npmRelease := fun n v =>
      if n = "foo" && v = "1.0" then some ⟨0, true⟩
      else if n = "foo" && v = "v2.0" then some ⟨86400, true⟩ else none,
    npmLatest := fun n => if n = "foo" then some "v2.0" else none }

/-- **C4** (counterexample): with the persistent cache produced by a
first run, a second run with all resolvers failing does *not* reproduce
the same update annotations: the cached non-version-shaped latest
`v2.0` must be re-validated by a (now failing) release-date fetch and its
`UPDATE_AVAILABLE` annotation is lost. -/
theorem failing_second_run_drops_update_annotation :
    (analyze_sbom Rfail true true (86400 * 400) 30 ["pkg:npm/foo@1.0"]
        (analyze_sbom Rc4 true true (86400 * 400) 30 ["pkg:npm/foo@1.0"] emptyCache).2).1 ≠
      (analyze_sbom Rc4 true true (86400 * 400) 30 ["pkg:npm/foo@1.0"] emptyCache).1 := by
  decide

/-- resolvers for the cache-idempotence witness: a non-priority maven
component with a version-shaped latest. -/
def Rw4 : Resolvers :=
  { Rfail with
    mavenRelease := fun _ _ _ => some ⟨0, true⟩,
    mavenLatest := fun _ _ => (some "2.0.0", some "repo1") }

def purlW : String := "pkg:maven/com.example/lib-example@1.0.0"

def alarmW : Alarm :=
  ⟨purlW, ⟨"maven", "1.0.0", "", "com.example", "lib-example"⟩, 0, 400⟩

/-- witness for `second_run_with_cache_reproduces_output`: the
repository's own test scenario (400-day-old maven component, latest
`2.0.0`) is reproduced exactly by a resolver-failing second run. -/
theorem second_run_with_cache_reproduces_output_witness :
    (analyze_sbom Rfail true true (86400 * 400) 30 [purlW]
        (analyze_sbom Rw4 true true (86400 * 400) 30 [purlW] emptyCache).2).1 =
      (analyze_sbom Rw4 true true (86400 * 400) 30 [purlW] emptyCache).1 := by
  apply second_run_with_cache_reproduces_output Rw4 (86400 * 400) 30 [purlW]
  · rw [show collectAlarms (86400 * 400) 30
        (runPhase1 Rw4 true true (workList [purlW]) ⟨emptyCache, fun _ => none⟩).1 =
        [alarmW] from by decide]
    exact List.pairwise_singleton _ _
  · intro a ha l hval
    rw [show collectAlarms (86400 * 400) 30
        (runPhase1 Rw4 true true (workList [purlW]) ⟨emptyCache, fun _ => none⟩).1 =
        [alarmW] from by decide] at ha
    rw [List.mem_singleton] at ha
    subst ha
    have hvv : freshVal Rw4 alarmW = some "2.0.0" := by decide
    rw [hvv] at hval
    cases hval
    decide
  · intro a ha hm hp
    rw [show collectAlarms (86400 * 400) 30
        (runPhase1 Rw4 true true (workList [purlW]) ⟨emptyCache, fun _ => none⟩).1 =
        [alarmW] from by decide] at ha
    rw [List.mem_singleton] at ha
    subst ha
    exact absurd hp (by decide)

end SbomCheck
